import Mathlib

/-!
# Session registry of the connection manager (`src/session.c`)

A shallow embedding of `session.c` and the properties proved about it.

Conventions of the embedding.

* C strings are `String`; a `char *` that the code tests against `NULL` is an
  `Option String`.
* `connman_bool_t` / `dbus_bool_t` are `Bool`; `unsigned int` fields filled from a
  D-Bus `UINT32` carry the numeric value as a `Nat`.
* A `GSList *` is a `List` (`NULL` is the empty list); the `GHashTable` keyed by
  session path is an association list.
* Calls whose outcome the code tests and that depend on the environment
  (`g_try_new0`, `g_strdup_printf`, `dbus_message_new_method_call`,
  `g_dbus_add_disconnect_watch`, `g_dbus_register_interface`) take their outcome
  as an explicit argument, so every branch of the source is present.
* Calls that emit something to the outside (`g_dbus_send_reply`,
  `g_dbus_send_message`, `g_timeout_add_seconds`,
  `__connman_service_disconnect_all`) append an `Effect` to the log of the state.
* Calls that change the watches, the registered objects or the hash table append a
  `Call` to the call list of the state, so the order of these calls can be stated.
* Memory is not modelled block by block; where the code frees a block twice or uses
  a freed session, the state is marked `undefined` (or the result is `none`).
-/

namespace Session

/-! ## D-Bus values -/

/-- A D-Bus value that is not an array: the three basic kinds the code reads, and
`other` for any value of another type. -/
inductive DBusBasic where
  | string (s : String)
  | boolean (b : Bool)
  | uint32 (n : Nat)
  | other
  deriving DecidableEq, Repr

/-- The content of a D-Bus variant as `session.c` looks at it: a single value or an
array of values. -/
inductive DBusValue where
  | basic (v : DBusBasic)
  | array (elems : List DBusBasic)
  deriving DecidableEq, Repr

/-- The type codes `dbus_message_iter_get_arg_type` is compared against. -/
inductive DBusType where
  | DBUS_TYPE_ARRAY
  | DBUS_TYPE_BOOLEAN
  | DBUS_TYPE_UINT32
  | DBUS_TYPE_STRING
  | DBUS_TYPE_OTHER
  deriving DecidableEq, Repr

/-- Type code of a basic value. -/
def DBusBasic.arg_type : DBusBasic → DBusType
  | .string _ => .DBUS_TYPE_STRING
  | .boolean _ => .DBUS_TYPE_BOOLEAN
  | .uint32 _ => .DBUS_TYPE_UINT32
  | .other => .DBUS_TYPE_OTHER

/-- Type code of a variant's content. -/
def DBusValue.arg_type : DBusValue → DBusType
  | .basic v => v.arg_type
  | .array _ => .DBUS_TYPE_ARRAY

/-! ## Bearers -/

/-- Modelled from the spec: `enum connman_service_type` is declared in a header that
is not under `src/`; the members are the service types the spec lists for a bearer. -/
inductive connman_service_type where
  | CONNMAN_SERVICE_TYPE_UNKNOWN
  | CONNMAN_SERVICE_TYPE_ETHERNET
  | CONNMAN_SERVICE_TYPE_WIFI
  | CONNMAN_SERVICE_TYPE_WIMAX
  | CONNMAN_SERVICE_TYPE_BLUETOOTH
  | CONNMAN_SERVICE_TYPE_CELLULAR
  deriving DecidableEq, Repr

open connman_service_type

/-- The record `struct bearer_info`. -/
structure bearer_info where
  name : String
  match_all : Bool
  service_type : connman_service_type
  deriving DecidableEq, Repr

/-- The function `bearer2service`: the fixed table from bearer name to service type. -/
def bearer2service (bearer : Option String) : connman_service_type :=
  match bearer with
  | none => CONNMAN_SERVICE_TYPE_UNKNOWN
  | some b =>
    if b = "ethernet" then CONNMAN_SERVICE_TYPE_ETHERNET
    else if b = "wifi" then CONNMAN_SERVICE_TYPE_WIFI
    else if b = "wimax" then CONNMAN_SERVICE_TYPE_WIMAX
    else if b = "bluetooth" then CONNMAN_SERVICE_TYPE_BLUETOOTH
    else if b = "3g" then CONNMAN_SERVICE_TYPE_CELLULAR
    else CONNMAN_SERVICE_TYPE_UNKNOWN

/-- The body of the `while` loop of `session_parse_allowed_bearers`, from iteration
`i` on: `list` is the list built so far, `try_new0 i` tells whether the `g_try_new0`
of iteration `i` returns memory. A failed allocation drops the list and returns
`NULL`; the loop stops at the first element that is not a string. -/
def session_parse_allowed_bearers_loop (try_new0 : Nat → Bool) :
    Nat → List DBusBasic → List bearer_info → List bearer_info
  | i, DBusBasic.string bearer :: rest, list =>
    if try_new0 i then
      let name := bearer
      let service_type := bearer2service (some name)
      let match_all :=
        if service_type = CONNMAN_SERVICE_TYPE_UNKNOWN ∧ name = "*" then true else false
      session_parse_allowed_bearers_loop try_new0 (i + 1) rest
        (list ++ [{ name := name, match_all := match_all, service_type := service_type }])
    else
      []
  | _, _, list => list

/-- The function `session_parse_allowed_bearers` on the elements of the array the
iterator points at. -/
def session_parse_allowed_bearers (try_new0 : Nat → Bool) (array : List DBusBasic) :
    List bearer_info :=
  session_parse_allowed_bearers_loop try_new0 0 array []

/-- The strings `append_allowed_bearers` appends: the names of the session's bearers
in list order. -/
def append_allowed_bearers (allowed_bearers : List bearer_info) : List String :=
  allowed_bearers.map (fun info => info.name)

/-! ## Sessions and messages -/

/-- The record `struct connman_session`. -/
structure connman_session where
  owner : String
  session_path : String
  notify_path : String
  notify_watch : Nat
  realtime : Bool
  allowed_bearers : List bearer_info
  avoid_handover : Bool
  stay_connected : Bool
  periodic_connect : Nat
  idle_timeout : Nat
  ecall : Bool
  roaming_allowed : Bool
  deriving DecidableEq, Repr

/-- A value stored under a name in the dictionary of an outgoing message. -/
inductive DictValue where
  | string (s : String)
  | boolean (b : Bool)
  | uint32 (n : Nat)
  | string_array (xs : List String)
  | dict (entries : List (String × DBusBasic))
  deriving DecidableEq, Repr

/-- The two interface names `session.c` uses; their string values are macros of a
header that is not under `src/`, so they stay symbolic. -/
inductive InterfaceName where
  | CONNMAN_NOTIFICATION_INTERFACE
  | CONNMAN_SESSION_INTERFACE
  deriving DecidableEq, Repr

/-- A method-call message built with `dbus_message_new_method_call`: `dict` is the
dictionary appended between `connman_dbus_dict_open` and `connman_dbus_dict_close`
(`none` when the message has no argument). -/
structure DBusMessage where
  destination : String
  path : String
  iface : InterfaceName
  method : String
  no_reply : Bool
  dict : Option (List (String × DictValue))
  deriving DecidableEq, Repr

/-- What a method handler returns to the caller. -/
inductive DBusReply where
  | empty
  | error_invalid_arguments
  | error_failed (errnum : Int)
  deriving DecidableEq, Repr

/-- Values of `errno.h`. -/
def EINVAL : Int := 22
/-- Values of `errno.h`. -/
def ENOMEM : Int := 12
/-- Values of `errno.h`. -/
def EEXIST : Int := 17
/-- Values of `errno.h`. -/
def EACCES : Int := 13

/-! ## The `Change` method -/

/-- The arguments of a `Change` call: `none` is a message without arguments
(`dbus_message_iter_init` returns `FALSE`), otherwise the name and the content of
the variant. -/
structure change_msg where
  args : Option (String × DBusValue)
  deriving DecidableEq, Repr

/-- What `change_session` leaves behind: the reply it returns, the session after
the writes through the pointer, and the messages handed to `g_dbus_send_message`. -/
structure change_result where
  reply : DBusReply
  session : connman_session
  sent : List DBusMessage
  deriving DecidableEq, Repr

/-- The `switch` of `change_session`: the session after the write and the entries
appended to the reply dictionary. -/
def change_session_switch (try_new0 : Nat → Bool) (name : String) (value : DBusValue)
    (session : connman_session) : connman_session × List (String × DictValue) :=
  match value with
  | .array elems =>
    if name = "AllowedBearers" then
      let allowed_bearers := session_parse_allowed_bearers try_new0 elems
      let session := { session with allowed_bearers := allowed_bearers }
      (session, [("AllowedBearers",
        DictValue.string_array (append_allowed_bearers session.allowed_bearers))])
    else (session, [])
  | .basic (.boolean b) =>
    if name = "Realtime" then
      let session := { session with realtime := b }
      (session, [("Realtime", DictValue.boolean session.realtime)])
    else if name = "AvoidHandover" then
      let session := { session with avoid_handover := b }
      (session, [("AvoidHandover", DictValue.boolean session.avoid_handover)])
    else if name = "StayConnected" then
      let session := { session with stay_connected := b }
      (session, [("StayConnected", DictValue.boolean session.stay_connected)])
    else if name = "EmergencyCall" then
      let session := { session with ecall := b }
      (session, [("EmergencyCall", DictValue.boolean session.ecall)])
    else if name = "RoamingAllowed" then
      let session := { session with roaming_allowed := b }
      (session, [("RoamingAllowed", DictValue.boolean session.roaming_allowed)])
    else (session, [])
  | .basic (.uint32 n) =>
    if name = "PeriodicConnect" then
      let session := { session with periodic_connect := n }
      (session, [("PeriodicConnect", DictValue.uint32 session.periodic_connect)])
    else if name = "IdleTimeout" then
      let session := { session with idle_timeout := n }
      (session, [("IdleTimeout", DictValue.uint32 session.idle_timeout)])
    else (session, [])
  | _ => (session, [])

/-- The handler `change_session`. `new_method_call` tells whether
`dbus_message_new_method_call` returns a message, `try_new0` is the allocator of the
bearer parser. -/
def change_session (new_method_call : Bool) (try_new0 : Nat → Bool) (msg : change_msg)
    (session : connman_session) : change_result :=
  match msg.args with
  | none => { reply := .error_invalid_arguments, session := session, sent := [] }
  | some (name, value) =>
    if new_method_call = false then
      { reply := .error_failed ENOMEM, session := session, sent := [] }
    else
      let r := change_session_switch try_new0 name value session
      let reply : DBusMessage :=
        { destination := session.owner, path := session.notify_path,
          iface := .CONNMAN_NOTIFICATION_INTERFACE, method := "Update",
          no_reply := false, dict := some r.2 }
      { reply := .empty, session := r.1, sent := [reply] }

/-! ## Module state -/

/-- A disconnect watch held by the bus library: its id, the bus name watched, and
the session given as `user_data` (named by the key it is registered under). -/
structure watch where
  id : Nat
  name : String
  user_data : String
  deriving DecidableEq, Repr

/-- What the module emits to the outside, in call order. -/
inductive Effect where
  | send_reply (destination : String) (session_path : String)
  | send_message (message : DBusMessage)
  | timeout_add_seconds (interval : Nat) (session : String)
  | service_disconnect_all
  deriving DecidableEq, Repr

/-- A call that changes the watch list, the object registrations or the hash table,
with the arguments that matter. -/
inductive Call where
  | add_disconnect_watch (name : String) (id : Nat)
  | remove_watch (id : Nat)
  | register_interface (path : String) (registered : Bool)
  | unregister_interface (path : String)
  | hash_table_replace (key : String)
  | hash_table_remove (key : String)
  | hash_table_destroy
  deriving DecidableEq, Repr

/-- The static variables of `session.c` (`connection` as "is not `NULL`"), the part of
the bus library's state the module drives (`listener_id`, `watches`, `interfaces`:
the object paths that carry the session interface), the log of effects, the calls
made on watches, objects and hash table in call order, and `undefined`: whether the
execution has done something C gives no meaning to (a block of memory freed twice,
a freed session used), after which nothing is known about the program. -/
structure State where
  connection : Bool
  session_hash : List (String × connman_session)
  sessionmode : Bool
  listener_id : Nat
  watches : List watch
  interfaces : List String
  log : List Effect
  calls : List Call
  undefined : Bool
  deriving DecidableEq, Repr

/-- The state at program start: C zero-initialises the static variables. -/
def static_init : State :=
  { connection := false, session_hash := [], sessionmode := false, listener_id := 0,
    watches := [], interfaces := [], log := [], calls := [], undefined := false }

/-- The call `g_hash_table_lookup` with keys compared by `g_str_equal`. -/
def g_hash_table_lookup (hash : List (String × connman_session)) (key : String) :
    Option connman_session :=
  (hash.find? (fun e => e.1 = key)).map (fun e => e.2)

/-- The call `g_hash_table_remove`. -/
def g_hash_table_remove (hash : List (String × connman_session)) (key : String) :
    List (String × connman_session) :=
  hash.filter (fun e => e.1 ≠ key)

/-- The call `g_hash_table_replace`. -/
def g_hash_table_replace (hash : List (String × connman_session)) (key : String)
    (value : connman_session) : List (String × connman_session) :=
  g_hash_table_remove hash key ++ [(key, value)]

/-- Modelled from the spec: `g_dbus_add_disconnect_watch` of the bus library (not under
`src/`) registers one liveness watch on the owner and returns its handle, a fresh
positive id, or 0 when no watch could be set up (`ok = false`). -/
def g_dbus_add_disconnect_watch (ok : Bool) (name : String) (user_data : String)
    (st : State) : Nat × State :=
  if ok then
    (st.listener_id + 1,
      { st with listener_id := st.listener_id + 1,
                watches := st.watches ++
                  [{ id := st.listener_id + 1, name := name, user_data := user_data }],
                calls := st.calls ++ [Call.add_disconnect_watch name (st.listener_id + 1)] })
  else (0, { st with calls := st.calls ++ [Call.add_disconnect_watch name 0] })

/-- Modelled from the spec: `g_dbus_remove_watch` of the bus library (not under `src/`)
cancels the liveness watch with the given handle. -/
def g_dbus_remove_watch (id : Nat) (st : State) : State :=
  { st with watches := st.watches.filter (fun w => w.id ≠ id),
            calls := st.calls ++ [Call.remove_watch id] }

/-- Modelled from the spec: `g_dbus_register_interface` of the bus library (not under
`src/`) registers the remote object at `path`; it fails when the environment makes it
fail (`ok = false`) or when the object is already registered there. -/
def g_dbus_register_interface (ok : Bool) (path : String) (st : State) : Bool × State :=
  if ok = true ∧ path ∉ st.interfaces then
    (true, { st with interfaces := st.interfaces ++ [path],
                     calls := st.calls ++ [Call.register_interface path true] })
  else (false, { st with calls := st.calls ++ [Call.register_interface path false] })

/-- Modelled from the spec: `g_dbus_unregister_interface` of the bus library (not under
`src/`) unregisters the remote object at `path`. -/
def g_dbus_unregister_interface (path : String) (st : State) : State :=
  { st with interfaces := st.interfaces.filter (fun p => p ≠ path),
            calls := st.calls ++ [Call.unregister_interface path] }

/-- The call `g_hash_table_replace(session_hash, key, value)` on the state. -/
def hash_table_replace (key : String) (value : connman_session) (st : State) : State :=
  { st with session_hash := g_hash_table_replace st.session_hash key value,
            calls := st.calls ++ [Call.hash_table_replace key] }

/-- The call `g_hash_table_remove(session_hash, key)` on the state. The table was
created with `cleanup_session` as value destructor, so the session stored under the
key is freed with its strings and its bearer list. -/
def hash_table_remove (key : String) (st : State) : State :=
  { st with session_hash := g_hash_table_remove st.session_hash key,
            calls := st.calls ++ [Call.hash_table_remove key] }

/-- The call `g_dbus_send_reply(connection, msg, DBUS_TYPE_OBJECT_PATH, &path, ...)`:
the reply goes to the sender of `msg`. -/
def g_dbus_send_reply (destination : String) (session_path : String) (st : State) : State :=
  { st with log := st.log ++ [Effect.send_reply destination session_path] }

/-- The call `g_dbus_send_message(connection, message)`. -/
def g_dbus_send_message (message : DBusMessage) (st : State) : State :=
  { st with log := st.log ++ [Effect.send_message message] }

/-- The call `g_timeout_add_seconds(interval, session_notify_all, session)`. -/
def g_timeout_add_seconds (interval : Nat) (session : String) (st : State) : State :=
  { st with log := st.log ++ [Effect.timeout_add_seconds interval session] }

/-- The call `__connman_service_disconnect_all()`. -/
def __connman_service_disconnect_all (st : State) : State :=
  { st with log := st.log ++ [Effect.service_disconnect_all] }

/-! ## Teardown of one session -/

/-- The function `session_disconnect`. -/
def session_disconnect (session : connman_session) (st : State) : Int × State :=
  let st1 := if session.notify_watch > 0 then g_dbus_remove_watch session.notify_watch st else st
  let st2 := g_dbus_unregister_interface session.session_path st1
  let st3 := hash_table_remove session.session_path st2
  (0, st3)

/-- The watch callback `owner_disconnect`. -/
def owner_disconnect (session : connman_session) (st : State) : State :=
  (session_disconnect session st).2

/-- Modelled from the spec: the bus library (not under `src/`) calls the callback of a
liveness watch with the session the watch was registered for. A watch cancelled in
the meantime is skipped. A watch whose session is gone from the registry points to
freed memory: the call has no defined behaviour (`none`). -/
def watch_fire (w : watch) (st : State) : Option State :=
  if w ∈ st.watches then
    match g_hash_table_lookup st.session_hash w.user_data with
    | some session =>
      if session.notify_watch = w.id then some (owner_disconnect session st) else none
    | none => none
  else some st

/-- Modelled from the spec: the owner-disconnect event of the bus library (not under
`src/`): every liveness watch registered on the bus name `name` fires, in
registration order. -/
def owner_disconnected (name : String) (st : State) : Option State :=
  (st.watches.filter (fun w => w.name = name)).foldlM (fun acc w => watch_fire w acc) st

/-- Modelled from the spec: the owner-disconnect event as it reaches the program,
whatever the state: where firing the watches has no defined behaviour, the state is
marked `undefined`. -/
def owner_disconnected_event (name : String) (st : State) : State :=
  match owner_disconnected name st with
  | some st' => st'
  | none => { st with undefined := true }

/-! ## Create and destroy -/

/-- The message of a create request: sender, attribute dictionary, and the notify
path (`none` when the pointer read from the message is `NULL`). -/
structure create_msg where
  sender : String
  dict : List (String × DBusValue)
  notify_path : Option String
  deriving DecidableEq, Repr

/-- The environment of one `__connman_session_create` call: `try_new0_info j i` is the
outcome of the `g_try_new0` for token `i` of dictionary entry `j`, the other fields
are the outcomes of `g_strdup_printf`, of the `g_try_new0` of the session, of
`g_dbus_add_disconnect_watch` and of `g_dbus_register_interface`. -/
structure create_env where
  try_new0_info : Nat → Nat → Bool
  strdup_printf : Bool
  try_new0_session : Bool
  add_disconnect_watch : Bool
  register_interface : Bool

/-- The local variables of `__connman_session_create` that the dictionary loop fills,
with their initial values. -/
structure create_locals where
  realtime : Bool := false
  avoid_handover : Bool := false
  stay_connected : Bool := false
  ecall : Bool := false
  roaming_allowed : Bool := false
  allowed_bearers : List bearer_info := []
  periodic_connect : Nat := 0
  idle_timeout : Nat := 0
  deriving DecidableEq, Repr

/-- The `switch` inside the dictionary loop of `__connman_session_create`. -/
def create_switch (try_new0 : Nat → Bool) (key : String) (value : DBusValue)
    (l : create_locals) : create_locals :=
  match value with
  | .array elems =>
    if key = "AllowedBearers" then
      { l with allowed_bearers := session_parse_allowed_bearers try_new0 elems }
    else l
  | .basic (.boolean b) =>
    if key = "Realtime" then { l with realtime := b }
    else if key = "AvoidHandover" then { l with avoid_handover := b }
    else if key = "StayConnected" then { l with stay_connected := b }
    else if key = "EmergencyCall" then { l with ecall := b }
    else if key = "RoamingAllowed" then { l with roaming_allowed := b }
    else l
  | .basic (.uint32 n) =>
    if key = "PeriodicConnect" then { l with periodic_connect := n }
    else if key = "IdleTimeout" then { l with idle_timeout := n }
    else l
  | _ => l

/-- The dictionary loop of `__connman_session_create`, from entry `j` on. -/
def create_loop (try_new0_info : Nat → Nat → Bool) :
    Nat → List (String × DBusValue) → create_locals → create_locals
  | _, [], l => l
  | j, (key, value) :: rest, l =>
    create_loop try_new0_info (j + 1) rest (create_switch (try_new0_info j) key value l)

/-- The call `g_strdup_printf("/sessions%s", notify_path)`. -/
def session_path_of (notify_path : String) : String :=
  "/sessions" ++ notify_path

/-- The fields `__connman_session_create` writes into the freshly allocated session. -/
def create_session (owner notify_path : String) (notify_watch : Nat) (l : create_locals) :
    connman_session :=
  { owner := owner, session_path := session_path_of notify_path, notify_path := notify_path,
    notify_watch := notify_watch,
    realtime := l.realtime, allowed_bearers := l.allowed_bearers,
    avoid_handover := l.avoid_handover, stay_connected := l.stay_connected,
    periodic_connect := l.periodic_connect, idle_timeout := l.idle_timeout,
    ecall := l.ecall, roaming_allowed := l.roaming_allowed }

/-- The label `err:` of `__connman_session_create`: it frees `session_path` and the
bearer list and returns `err`. `freed` tells whether these two blocks, which belong to
the session since the assignments `session->session_path = session_path` and
`session->allowed_bearers = allowed_bearers`, were already freed with the session by
`cleanup_session`; freeing them a second time has no defined behaviour. -/
def create_err (err : Int) (freed : Bool) (st : State) : Int × State :=
  if freed = true then (err, { st with undefined := true }) else (err, st)

/-- The part of `__connman_session_create` that follows the allocation of the
session: watch, insertion, object registration, reply and deferred notification.
When the object registration fails, `g_hash_table_remove` frees the session through
`cleanup_session` and the code jumps to `err:`. -/
def create_register (env : create_env) (owner notify_path : String) (l : create_locals)
    (st : State) : Int × State :=
  let w := g_dbus_add_disconnect_watch env.add_disconnect_watch owner
    (session_path_of notify_path) st
  let session := create_session owner notify_path w.1 l
  let st2 := hash_table_replace session.session_path session w.2
  let r := g_dbus_register_interface env.register_interface session.session_path st2
  if r.1 = false then
    create_err (-EINVAL) true (hash_table_remove session.session_path r.2)
  else
    let st4 := g_dbus_send_reply owner session.session_path r.2
    let st5 := g_timeout_add_seconds 0 session.session_path st4
    (0, st5)

/-- The function `__connman_session_create`: the returned error code and the state
after the call. -/
def __connman_session_create (env : create_env) (msg : create_msg) (st : State) :
    Int × State :=
  let owner := msg.sender
  let l := create_loop env.try_new0_info 0 msg.dict {}
  match msg.notify_path with
  | none => create_err (-EINVAL) false st
  | some notify_path =>
    if env.strdup_printf = false then create_err (-ENOMEM) false st
    else if (g_hash_table_lookup st.session_hash (session_path_of notify_path)).isSome then
      create_err (-EEXIST) false st
    else if env.try_new0_session = false then create_err (-ENOMEM) false st
    else create_register env owner notify_path l st

/-- The message of a destroy request: sender and the session path read from the
arguments (`none` when it stays `NULL`). -/
structure destroy_msg where
  sender : String
  session_path : Option String
  deriving DecidableEq, Repr

/-- The function `__connman_session_destroy`. -/
def __connman_session_destroy (msg : destroy_msg) (st : State) : Int × State :=
  let owner := msg.sender
  match msg.session_path with
  | none => (-EINVAL, st)
  | some session_path =>
    match g_hash_table_lookup st.session_hash session_path with
    | none => (-EINVAL, st)
    | some session =>
      if owner ≠ session.owner then (-EACCES, st)
      else (0, (session_disconnect session st).2)

/-! ## Session mode -/

/-- The function `__connman_session_mode`. -/
def __connman_session_mode (st : State) : Bool :=
  st.sessionmode

/-- The function `__connman_session_set_mode`. -/
def __connman_session_set_mode (enable : Bool) (st : State) : State :=
  if st.sessionmode = enable then st
  else
    let st1 := { st with sessionmode := enable }
    if st1.sessionmode = true then __connman_service_disconnect_all st1 else st1

/-- The function `__connman_session_init`; `connman_dbus_get_connection` tells whether
the call of that name returns a connection. -/
def __connman_session_init (connman_dbus_get_connection : Bool) (st : State) : Int × State :=
  let st1 := { st with connection := connman_dbus_get_connection }
  if st1.connection = false then (-1, st1)
  else (0, { st1 with session_hash := [], sessionmode := false })

/-! ## Notifications and shutdown -/

/-- Modelled from the spec: a service of the connectivity manager (its type and its
accessors are not under `src/`), as far as `session.c` reads it: the entries of its
IPv4 and of its IPv6 configuration, `none` when it has no such configuration. -/
structure connman_service where
  ip4config : Option (List (String × DBusBasic))
  ip6config : Option (List (String × DBusBasic))
  deriving DecidableEq, Repr

/-- The callback `append_ipconfig_ipv4`: the entries appended to the `IPv4`
dictionary. -/
def append_ipconfig_ipv4 (service : Option connman_service) : List (String × DBusBasic) :=
  match service with
  | none => []
  | some service =>
    match service.ip4config with
    | none => []
    | some ipconfig_ipv4 => ipconfig_ipv4

/-- The callback `append_ipconfig_ipv6`: the entries appended to the `IPv6`
dictionary. -/
def append_ipconfig_ipv6 (service : Option connman_service) : List (String × DBusBasic) :=
  match service with
  | none => []
  | some service =>
    match service.ip6config with
    | none => []
    | some ipconfig_ipv6 => ipconfig_ipv6

/-- The function `append_notify_all`: the entries appended to the dictionary, in
call order. -/
def append_notify_all (session : connman_session) : List (String × DictValue) :=
  let bearer := ""
  let online := false
  let name := ""
  let service : Option connman_service := none
  let ifname := ""
  let session_marker := 0
  [ ("Bearer", DictValue.string bearer),
    ("Online", DictValue.boolean online),
    ("Name", DictValue.string name),
    ("IPv4", DictValue.dict (append_ipconfig_ipv4 service)),
    ("IPv6", DictValue.dict (append_ipconfig_ipv6 service)),
    ("Interface", DictValue.string ifname),
    ("Realtime", DictValue.boolean session.realtime),
    ("AllowedBearers",
      DictValue.string_array (append_allowed_bearers session.allowed_bearers)),
    ("AvoidHandover", DictValue.boolean session.avoid_handover),
    ("StayConnected", DictValue.boolean session.stay_connected),
    ("PeriodicConnect", DictValue.uint32 session.periodic_connect),
    ("IdleTimeout", DictValue.uint32 session.idle_timeout),
    ("EmergencyCall", DictValue.boolean session.ecall),
    ("RoamingAllowed", DictValue.boolean session.roaming_allowed),
    ("SessionMarker", DictValue.uint32 session_marker) ]

/-- The timer callback `session_notify_all`: the value returned (`FALSE`) and the
state after the call. `new_method_call` tells whether
`dbus_message_new_method_call` returns a message. -/
def session_notify_all (new_method_call : Bool) (session : connman_session) (st : State) :
    Bool × State :=
  if new_method_call = false then (false, st)
  else
    let msg : DBusMessage :=
      { destination := session.owner, path := session.notify_path,
        iface := .CONNMAN_NOTIFICATION_INTERFACE, method := "Update",
        no_reply := false, dict := some (append_notify_all session) }
    (false, g_dbus_send_message msg st)

/-- The callback `release_session` of the hash-table traversal. -/
def release_session (new_method_call : Bool) (session : connman_session) (st : State) :
    State :=
  let st1 := if session.notify_watch > 0 then g_dbus_remove_watch session.notify_watch st else st
  let st2 := g_dbus_unregister_interface session.session_path st1
  if new_method_call = false then st2
  else
    let message : DBusMessage :=
      { destination := session.owner, path := session.notify_path,
        iface := .CONNMAN_NOTIFICATION_INTERFACE, method := "Release",
        no_reply := true, dict := none }
    g_dbus_send_message message st2

/-- The call `g_hash_table_foreach(session_hash, release_session, NULL)`, from entry
`i` on; `new_method_call i` is the outcome of `dbus_message_new_method_call` in the
callback for entry `i`. -/
def release_session_foreach (new_method_call : Nat → Bool) :
    Nat → List (String × connman_session) → State → State
  | _, [], st => st
  | i, (_, session) :: rest, st =>
    release_session_foreach new_method_call (i + 1) rest
      (release_session (new_method_call i) session st)

/-- The function `__connman_session_cleanup`: after the traversal
`g_hash_table_destroy` frees every session, the table is gone. -/
def __connman_session_cleanup (new_method_call : Nat → Bool) (st : State) : State :=
  if st.connection = false then st
  else
    let st1 := release_session_foreach new_method_call 0 st.session_hash st
    { st1 with session_hash := [], calls := st1.calls ++ [Call.hash_table_destroy] }

/-- Modelled from the spec: the bus library (not under `src/`) hands a `Change` call
on the object registered at `path` to `change_session` with the session registered
there; the writes through the session pointer land in the registered session, the
messages sent go to the log. Without an object at `path` the handler is not called
(`none`), and an object whose session is gone points to freed memory (`none`). -/
def session_method_change (new_method_call : Bool) (try_new0 : Nat → Bool) (path : String)
    (msg : change_msg) (st : State) : Option (DBusReply × State) :=
  if path ∈ st.interfaces then
    match g_hash_table_lookup st.session_hash path with
    | some session =>
      let r := change_session new_method_call try_new0 msg session
      some (r.reply,
        { st with
          session_hash :=
            st.session_hash.map (fun e => if e.1 = path then (e.1, r.session) else e),
          log := st.log ++ r.sent.map Effect.send_message })
    | none => none
  else none

/-! ## Definitions used to state the properties -/

/-- The entry the spec gives for one bearer token: the name is the token, the flag
tells whether the name is `"*"`, the service type is the table lookup of the name. -/
def bearer_of_token (t : String) : bearer_info :=
  { name := t, match_all := decide (t = "*"), service_type := bearer2service (some t) }

/-- The environment in which every allocation and every bus call succeeds. -/
def env_ok : create_env :=
  { try_new0_info := fun _ _ => true, strdup_printf := true, try_new0_session := true,
    add_disconnect_watch := true, register_interface := true }

/-- A recognized attribute name paired with a value of the kind the spec gives for
it: a string sequence for `AllowedBearers`, a boolean for `Realtime`,
`AvoidHandover`, `StayConnected`, `EmergencyCall`, `RoamingAllowed`, a uint32 for
`PeriodicConnect` and `IdleTimeout`. -/
inductive attribute_change where
  | AllowedBearers (ts : List String)
  | Realtime (b : Bool)
  | AvoidHandover (b : Bool)
  | StayConnected (b : Bool)
  | EmergencyCall (b : Bool)
  | RoamingAllowed (b : Bool)
  | PeriodicConnect (n : Nat)
  | IdleTimeout (n : Nat)
  deriving DecidableEq, Repr

/-- The attribute name of a change, as written in the request. -/
def attribute_change.name : attribute_change → String
  | .AllowedBearers _ => "AllowedBearers"
  | .Realtime _ => "Realtime"
  | .AvoidHandover _ => "AvoidHandover"
  | .StayConnected _ => "StayConnected"
  | .EmergencyCall _ => "EmergencyCall"
  | .RoamingAllowed _ => "RoamingAllowed"
  | .PeriodicConnect _ => "PeriodicConnect"
  | .IdleTimeout _ => "IdleTimeout"

/-- The content of the variant that carries the new value in the request. -/
def attribute_change.value : attribute_change → DBusValue
  | .AllowedBearers ts => .array (ts.map DBusBasic.string)
  | .Realtime b => .basic (.boolean b)
  | .AvoidHandover b => .basic (.boolean b)
  | .StayConnected b => .basic (.boolean b)
  | .EmergencyCall b => .basic (.boolean b)
  | .RoamingAllowed b => .basic (.boolean b)
  | .PeriodicConnect n => .basic (.uint32 n)
  | .IdleTimeout n => .basic (.uint32 n)

/-- The session with the named field set to the new value and every other field
kept. -/
def attribute_change.set (c : attribute_change) (s : connman_session) : connman_session :=
  match c with
  | .AllowedBearers ts => { s with allowed_bearers := ts.map bearer_of_token }
  | .Realtime b => { s with realtime := b }
  | .AvoidHandover b => { s with avoid_handover := b }
  | .StayConnected b => { s with stay_connected := b }
  | .EmergencyCall b => { s with ecall := b }
  | .RoamingAllowed b => { s with roaming_allowed := b }
  | .PeriodicConnect n => { s with periodic_connect := n }
  | .IdleTimeout n => { s with idle_timeout := n }

/-- The new value as it stands in the dictionary of the `Update` message. -/
def attribute_change.dict_value : attribute_change → DictValue
  | .AllowedBearers ts => .string_array ts
  | .Realtime b => .boolean b
  | .AvoidHandover b => .boolean b
  | .StayConnected b => .boolean b
  | .EmergencyCall b => .boolean b
  | .RoamingAllowed b => .boolean b
  | .PeriodicConnect n => .uint32 n
  | .IdleTimeout n => .uint32 n

/-- The `Update` message for a session with the given dictionary. -/
def update_message (session : connman_session) (dict : List (String × DictValue)) :
    DBusMessage :=
  { destination := session.owner, path := session.notify_path,
    iface := .CONNMAN_NOTIFICATION_INTERFACE, method := "Update",
    no_reply := false, dict := some dict }

/-- The eight attribute keys the spec lists as recognized. -/
def recognized_keys : List String :=
  ["AllowedBearers", "Realtime", "AvoidHandover", "StayConnected", "EmergencyCall",
   "RoamingAllowed", "PeriodicConnect", "IdleTimeout"]

/-- The D-Bus type under which `change_session` accepts a value for an attribute
name; `none` for a name that is not recognized. -/
def attribute_type (name : String) : Option DBusType :=
  if name = "AllowedBearers" then some .DBUS_TYPE_ARRAY
  else if name = "Realtime" ∨ name = "AvoidHandover" ∨ name = "StayConnected"
      ∨ name = "EmergencyCall" ∨ name = "RoamingAllowed" then some .DBUS_TYPE_BOOLEAN
  else if name = "PeriodicConnect" ∨ name = "IdleTimeout" then some .DBUS_TYPE_UINT32
  else none

/-- The current value of the session attribute called `name`, as a dictionary
value; `none` for a name that is not recognized. -/
def attribute_value (name : String) (s : connman_session) : Option DictValue :=
  if name = "AllowedBearers" then
    some (.string_array (s.allowed_bearers.map (fun info => info.name)))
  else if name = "Realtime" then some (.boolean s.realtime)
  else if name = "AvoidHandover" then some (.boolean s.avoid_handover)
  else if name = "StayConnected" then some (.boolean s.stay_connected)
  else if name = "EmergencyCall" then some (.boolean s.ecall)
  else if name = "RoamingAllowed" then some (.boolean s.roaming_allowed)
  else if name = "PeriodicConnect" then some (.uint32 s.periodic_connect)
  else if name = "IdleTimeout" then some (.uint32 s.idle_timeout)
  else none

/-- The dictionary of the `Update` message after a change of `name` to `value` that
left the session `s`: the pair of the name and the field's value when the name is
recognized and the value has the type of that field, no pair otherwise. -/
def changed_dict (name : String) (value : DBusValue) (s : connman_session) :
    List (String × DictValue) :=
  if attribute_type name = some value.arg_type then
    match attribute_value name s with
    | some v => [(name, v)]
    | none => []
  else []

/-- A session used in examples: owner `:1.7`, notify path `/foo`, every attribute
at its default. -/
def example_session : connman_session :=
  create_session ":1.7" "/foo" 1 {}

/-- A sequence of `__connman_session_set_mode` calls, in order. -/
def set_mode_calls (calls : List Bool) (st : State) : State :=
  calls.foldl (fun acc enable => __connman_session_set_mode enable acc) st

/-- The number of calls of the sequence that change the mode from false to true,
`mode` being the mode before the first call. -/
def rising_edges : Bool → List Bool → Nat
  | _, [] => 0
  | mode, enable :: rest =>
    (if mode = false ∧ enable = true then 1 else 0) + rising_edges enable rest

/-- How often the log records a call of `__connman_service_disconnect_all`. -/
def disconnect_all_count (log : List Effect) : Nat :=
  log.count Effect.service_disconnect_all

/-- The effects the spec gives for a create request that returned `ret`: on success
the reply with the derived path, then the deferred full-state notification for the
new session; nothing on failure. -/
def create_effects (msg : create_msg) (ret : Int) : List Effect :=
  if ret = 0 then
    match msg.notify_path with
    | some p => [Effect.send_reply msg.sender (session_path_of p),
                 Effect.timeout_add_seconds 0 (session_path_of p)]
    | none => []
  else []

/-- The state after the three create requests of the example: `:1.7` creates
sessions on `/a` and `/b`, `:1.9` creates one on `/c`. -/
def example_state : State :=
  (__connman_session_create env_ok { sender := ":1.9", dict := [], notify_path := some "/c" }
    (__connman_session_create env_ok { sender := ":1.7", dict := [], notify_path := some "/b" }
      (__connman_session_create env_ok
        { sender := ":1.7", dict := [], notify_path := some "/a" }
        (__connman_session_init true static_init).2).2).2).2

/-- The fields the spec lists for the full snapshot: the placeholders of the
connectivity manager with empty or default values and every session attribute with
the session's current value. -/
def snapshot_fields (session : connman_session) : List (String × DictValue) :=
  [ ("Bearer", DictValue.string ""),
    ("Online", DictValue.boolean false),
    ("Name", DictValue.string ""),
    ("IPv4", DictValue.dict []),
    ("IPv6", DictValue.dict []),
    ("Interface", DictValue.string ""),
    ("Realtime", DictValue.boolean session.realtime),
    ("AllowedBearers",
      DictValue.string_array (session.allowed_bearers.map (fun info => info.name))),
    ("AvoidHandover", DictValue.boolean session.avoid_handover),
    ("StayConnected", DictValue.boolean session.stay_connected),
    ("PeriodicConnect", DictValue.uint32 session.periodic_connect),
    ("IdleTimeout", DictValue.uint32 session.idle_timeout),
    ("EmergencyCall", DictValue.boolean session.ecall),
    ("RoamingAllowed", DictValue.boolean session.roaming_allowed) ]

/-- The `Release` message for a session: a method call without arguments to the
session's owner and notify path, flagged as expecting no reply. -/
def release_message (session : connman_session) : DBusMessage :=
  { destination := session.owner, path := session.notify_path,
    iface := .CONNMAN_NOTIFICATION_INTERFACE, method := "Release",
    no_reply := true, dict := none }

/-- The watch handles held by the sessions of a list of registry entries (a handle
0 means the session holds no watch). -/
def held_watches (entries : List (String × connman_session)) : List Nat :=
  (entries.filter (fun e => 0 < e.2.notify_watch)).map (fun e => e.2.notify_watch)

/-- The value of the last entry of the dictionary that has the key `key` and a
boolean value; `none` when there is no such entry. -/
def last_boolean (key : String) : List (String × DBusValue) → Option Bool
  | [] => none
  | (k, v) :: rest =>
    match last_boolean key rest with
    | some b => some b
    | none =>
      match v with
      | .basic (.boolean b) => if k = key then some b else none
      | _ => none

/-- The value of the last entry of the dictionary that has the key `key` and a
uint32 value; `none` when there is no such entry. -/
def last_uint32 (key : String) : List (String × DBusValue) → Option Nat
  | [] => none
  | (k, v) :: rest =>
    match last_uint32 key rest with
    | some n => some n
    | none =>
      match v with
      | .basic (.uint32 n) => if k = key then some n else none
      | _ => none

/-- The elements of the last entry of the dictionary that has the key `key` and an
array value; `none` when there is no such entry. -/
def last_array (key : String) : List (String × DBusValue) → Option (List DBusBasic)
  | [] => none
  | (k, v) :: rest =>
    match last_array key rest with
    | some elems => some elems
    | none =>
      match v with
      | .array elems => if k = key then some elems else none
      | _ => none

/-- The strings at the front of an array, up to its first element that is not a
string. For an array of strings these are all its elements. -/
def leading_strings : List DBusBasic → List String
  | .string s :: rest => s :: leading_strings rest
  | _ => []

/-- The string sequence a value of the kind of `AllowedBearers` carries: `some ts`
for an array whose elements are all strings, `none` for any other value. -/
def string_sequence : DBusValue → Option (List String)
  | .array elems =>
    if elems.all (fun v => v.arg_type = DBusType.DBUS_TYPE_STRING) then
      some (leading_strings elems)
    else none
  | _ => none

/-- The value of the last entry of the dictionary that has the key `key` and a
string sequence as value; `none` when there is no such entry. -/
def last_string_sequence (key : String) : List (String × DBusValue) → Option (List String)
  | [] => none
  | (k, v) :: rest =>
    match last_string_sequence key rest with
    | some ts => some ts
    | none =>
      match string_sequence v with
      | some ts => if k = key then some ts else none
      | none => none

/-- The policy fields the attribute dictionary determines, `l` holding the values
for the fields it does not mention: each field is the value of the last entry with
the field's key and the D-Bus type of the field; for `AllowedBearers` the array
gives the bearers of its leading strings. -/
def attributes_of (dict : List (String × DBusValue)) (l : create_locals) : create_locals :=
  { realtime := (last_boolean "Realtime" dict).getD l.realtime,
    avoid_handover := (last_boolean "AvoidHandover" dict).getD l.avoid_handover,
    stay_connected := (last_boolean "StayConnected" dict).getD l.stay_connected,
    ecall := (last_boolean "EmergencyCall" dict).getD l.ecall,
    roaming_allowed := (last_boolean "RoamingAllowed" dict).getD l.roaming_allowed,
    allowed_bearers :=
      match last_array "AllowedBearers" dict with
      | some elems => (leading_strings elems).map bearer_of_token
      | none => l.allowed_bearers,
    periodic_connect := (last_uint32 "PeriodicConnect" dict).getD l.periodic_connect,
    idle_timeout := (last_uint32 "IdleTimeout" dict).getD l.idle_timeout }

/-- A dictionary that gives `AllowedBearers` twice: first as the string sequence
`["wifi"]`, then as an array of uint32. -/
def example_dict : List (String × DBusValue) :=
  [("AllowedBearers", DBusValue.array [DBusBasic.string "wifi"]),
   ("AllowedBearers", DBusValue.array [DBusBasic.uint32 1])]

/-- The session `s'` differs from `s` at most in the policy field called `name`: owner,
session path, notify path and watch handle are the same, and so is every policy
field whose name is not `name`. -/
def same_except (name : String) (s s' : connman_session) : Prop :=
  s'.owner = s.owner ∧ s'.session_path = s.session_path
    ∧ s'.notify_path = s.notify_path ∧ s'.notify_watch = s.notify_watch
    ∧ (name ≠ "Realtime" → s'.realtime = s.realtime)
    ∧ (name ≠ "AllowedBearers" → s'.allowed_bearers = s.allowed_bearers)
    ∧ (name ≠ "AvoidHandover" → s'.avoid_handover = s.avoid_handover)
    ∧ (name ≠ "StayConnected" → s'.stay_connected = s.stay_connected)
    ∧ (name ≠ "PeriodicConnect" → s'.periodic_connect = s.periodic_connect)
    ∧ (name ≠ "IdleTimeout" → s'.idle_timeout = s.idle_timeout)
    ∧ (name ≠ "EmergencyCall" → s'.ecall = s.ecall)
    ∧ (name ≠ "RoamingAllowed" → s'.roaming_allowed = s.roaming_allowed)

/-- One event of the registry: a create request (in any environment, so also one
whose object registration fails), a destroy request, a `Change` call dispatched to a
registered object, the disconnect event of a bus name (any name, in any state), a
change of the session mode, or the timer callback `session_notify_all`. -/
inductive registry_step : State → State → Prop where
  | create (env : create_env) (msg : create_msg) (st : State) :
      registry_step st (__connman_session_create env msg st).2
  | destroy (msg : destroy_msg) (st : State) :
      registry_step st (__connman_session_destroy msg st).2
  | change (new_method_call : Bool) (try_new0 : Nat → Bool) (path : String)
      (msg : change_msg) (st : State) (reply : DBusReply) (st' : State) :
      session_method_change new_method_call try_new0 path msg st = some (reply, st') →
      registry_step st st'
  | owner_disconnect (name : String) (st : State) :
      registry_step st (owner_disconnected_event name st)
  | set_mode (enable : Bool) (st : State) :
      registry_step st (__connman_session_set_mode enable st)
  | notify_all (new_method_call : Bool) (session : connman_session) (st : State) :
      registry_step st (session_notify_all new_method_call session st).2

/-- The states reached from an empty registry (no session, no watch, no registered
object) by any sequence of events. -/
inductive reachable : State → Prop where
  | empty (st : State) :
      st.session_hash = [] → st.watches = [] → st.interfaces = [] → reachable st
  | step (st st' : State) : reachable st → registry_step st st' → reachable st'

/-- The invariant of the registry: every key is `/sessions` followed by the notify
path of its session and is that session's `session_path`; the keys are pairwise
distinct; no object path is registered twice; every registered object path is a key
and every key is a registered object path; the ids of the active watches are
pairwise distinct, positive and at most the counter of the bus library. -/
def registry_invariant (st : State) : Prop :=
  (∀ e ∈ st.session_hash, e.1 = session_path_of e.2.notify_path ∧ e.2.session_path = e.1)
    ∧ (st.session_hash.map (fun e => e.1)).Nodup
    ∧ st.interfaces.Nodup
    ∧ (∀ p ∈ st.interfaces, (g_hash_table_lookup st.session_hash p).isSome = true)
    ∧ (∀ e ∈ st.session_hash, e.1 ∈ st.interfaces)
    ∧ (st.watches.map (fun w => w.id)).Nodup
    ∧ (∀ w ∈ st.watches, 0 < w.id ∧ w.id ≤ st.listener_id)

/-- The state after a create request on `/foo` whose object registration fails,
followed by a create request on `/foo` that goes through. -/
def example_retry_state : State :=
  (__connman_session_create env_ok
    { sender := ":1.9", dict := [], notify_path := some "/foo" }
    (__connman_session_create { env_ok with register_interface := false }
      { sender := ":1.7", dict := [], notify_path := some "/foo" }
      (__connman_session_init true static_init).2).2).2

/-- The watches and the sessions agree: every active watch was registered for a
registered session that holds its handle and whose owner is the bus name watched,
and every registered session that holds a handle (`notify_watch > 0`) has its watch
active. -/
def watch_invariant (st : State) : Prop :=
  (∀ w ∈ st.watches, ∃ e ∈ st.session_hash,
      e.1 = w.user_data ∧ e.2.notify_watch = w.id ∧ e.2.owner = w.name)
    ∧ (∀ e ∈ st.session_hash, 0 < e.2.notify_watch →
        ({ id := e.2.notify_watch, name := e.2.owner, user_data := e.1 } : watch)
          ∈ st.watches)

theorem bearer2service_star :
    bearer2service (some "*") = connman_service_type.CONNMAN_SERVICE_TYPE_UNKNOWN := by
  decide

theorem parse_loop_strings (try_new0 : Nat → Bool) (ts : List String) :
    ∀ (i : Nat) (list : List bearer_info),
      (∀ j, j < ts.length → try_new0 (i + j) = true) →
      session_parse_allowed_bearers_loop try_new0 i (ts.map DBusBasic.string) list
        = list ++ ts.map bearer_of_token := by
  induction ts with
  | nil => intro i list _; simp [session_parse_allowed_bearers_loop]
  | cons t ts ih =>
    intro i list h
    have h0 : try_new0 i = true := by simpa using h 0 (by simp)
    have hrest : ∀ j, j < ts.length → try_new0 (i + 1 + j) = true := by
      intro j hj
      have := h (j + 1) (by simp [hj])
      simpa [Nat.add_assoc, Nat.add_comm 1 j] using this
    simp only [List.map_cons, session_parse_allowed_bearers_loop, h0, if_true]
    rw [ih (i + 1) _ hrest]
    have hm : (if bearer2service (some t) = connman_service_type.CONNMAN_SERVICE_TYPE_UNKNOWN
        ∧ t = "*" then true else false) = decide (t = "*") := by
      by_cases ht : t = "*"
      · subst ht; simp [bearer2service_star]
      · simp [ht]
    simp [bearer_of_token, hm]

theorem parse_strings (try_new0 : Nat → Bool) (ts : List String)
    (h : ∀ i, i < ts.length → try_new0 i = true) :
    session_parse_allowed_bearers try_new0 (ts.map DBusBasic.string)
      = ts.map bearer_of_token := by
  unfold session_parse_allowed_bearers
  rw [parse_loop_strings try_new0 ts 0 [] (by simpa using h)]
  simp

/-- C1: when the allocations of the parser succeed, `session_parse_allowed_bearers`
returns, for every list of string tokens, one entry per token in the same order; the
entry's name is the token, its service type is `bearer2service` of the name and its
`match_all` flag is true exactly when the name is `"*"`. The result never depends on
a token being known: its length is the number of tokens. The list
`["wifi", "*", "bogus"]` gives `{wifi, WIFI, false}, {*, UNKNOWN, true},
{bogus, UNKNOWN, false}`. -/
theorem session_parse_allowed_bearers_spec (try_new0 : Nat → Bool) (ts : List String)
    (halloc : ∀ i, i < ts.length → try_new0 i = true) :
    session_parse_allowed_bearers try_new0 (ts.map DBusBasic.string)
        = ts.map (fun t =>
            ({ name := t, match_all := decide (t = "*"),
               service_type := bearer2service (some t) } : bearer_info))
      ∧ (session_parse_allowed_bearers try_new0 (ts.map DBusBasic.string)).length = ts.length
      ∧ (∀ info ∈ session_parse_allowed_bearers try_new0 (ts.map DBusBasic.string),
          (info.match_all = true ↔ info.name = "*")
          ∧ info.service_type = bearer2service (some info.name))
      ∧ session_parse_allowed_bearers (fun _ => true)
          [DBusBasic.string "wifi", DBusBasic.string "*", DBusBasic.string "bogus"]
        = [ { name := "wifi", match_all := false,
              service_type := connman_service_type.CONNMAN_SERVICE_TYPE_WIFI },
            { name := "*", match_all := true,
              service_type := connman_service_type.CONNMAN_SERVICE_TYPE_UNKNOWN },
            { name := "bogus", match_all := false,
              service_type := connman_service_type.CONNMAN_SERVICE_TYPE_UNKNOWN } ] := by
  have hp := parse_strings try_new0 ts halloc
  refine ⟨?_, ?_, ?_, ?_⟩
  · rw [hp]; rfl
  · rw [hp]; simp
  · rw [hp]
    intro info hinfo
    obtain ⟨t, _, rfl⟩ := List.mem_map.mp hinfo
    simp [bearer_of_token]
  · decide

/-- Witness of C1: the three tokens of the spec's example, every allocation
succeeding. -/
theorem session_parse_allowed_bearers_spec_witness :
    (∀ i, i < ["wifi", "*", "bogus"].length → (fun _ : Nat => true) i = true)
      ∧ session_parse_allowed_bearers (fun _ => true)
          (["wifi", "*", "bogus"].map DBusBasic.string)
        = ["wifi", "*", "bogus"].map (fun t =>
            ({ name := t, match_all := decide (t = "*"),
               service_type := bearer2service (some t) } : bearer_info)) :=
  ⟨fun _ _ => rfl,
   (session_parse_allowed_bearers_spec (fun _ => true) ["wifi", "*", "bogus"]
      (fun _ _ => rfl)).1⟩


/-! ## The registry -/

theorem lookup_append_self (hash : List (String × connman_session)) (key : String)
    (v : connman_session) (h : g_hash_table_lookup hash key = none) :
    g_hash_table_lookup (hash ++ [(key, v)]) key = some v := by
  unfold g_hash_table_lookup at *
  rw [List.find?_append]
  cases hf : hash.find? (fun e => decide (e.1 = key)) with
  | none => simp
  | some e => simp [hf] at h

theorem lookup_remove_self (hash : List (String × connman_session)) (key : String) :
    g_hash_table_lookup (g_hash_table_remove hash key) key = none := by
  unfold g_hash_table_lookup g_hash_table_remove
  simp [List.find?_eq_none]

theorem lookup_remove_ne (hash : List (String × connman_session)) (key k : String)
    (h : k ≠ key) :
    g_hash_table_lookup (g_hash_table_remove hash key) k = g_hash_table_lookup hash k := by
  unfold g_hash_table_lookup g_hash_table_remove
  rw [List.find?_filter]
  congr 1
  induction hash with
  | nil => rfl
  | cons e hash ih =>
    obtain ⟨a, s⟩ := e
    by_cases hk : a = k
    · have he : ¬ a = key := fun h' => h (hk ▸ h')
      simp [List.find?_cons, hk, h]
    · simp only [List.find?_cons, hk, decide_False, Bool.false_eq_true, and_false]
      exact ih

theorem lookup_replace_self (hash : List (String × connman_session)) (key : String)
    (v : connman_session) :
    g_hash_table_lookup (g_hash_table_replace hash key v) key = some v :=
  lookup_append_self _ _ _ (lookup_remove_self hash key)

theorem lookup_replace_ne (hash : List (String × connman_session)) (key k : String)
    (v : connman_session) (h : k ≠ key) :
    g_hash_table_lookup (g_hash_table_replace hash key v) k = g_hash_table_lookup hash k := by
  unfold g_hash_table_replace
  rw [← lookup_remove_ne hash key k h]
  unfold g_hash_table_lookup
  rw [List.find?_append]
  have : ¬ key = k := fun h' => h h'.symm
  cases (g_hash_table_remove hash key).find? (fun e => decide (e.1 = k)) <;> simp [this]

theorem lookup_none_not_mem (hash : List (String × connman_session)) (key : String)
    (h : g_hash_table_lookup hash key = none) : ∀ e ∈ hash, e.1 ≠ key := by
  unfold g_hash_table_lookup at h
  simp only [Option.map_eq_none', List.find?_eq_none, decide_eq_true_eq] at h
  exact h

theorem remove_of_lookup_none (hash : List (String × connman_session)) (key : String)
    (h : g_hash_table_lookup hash key = none) : g_hash_table_remove hash key = hash := by
  unfold g_hash_table_remove
  rw [List.filter_eq_self]
  intro e he
  simpa using lookup_none_not_mem hash key h e he

/-! ## Create -/

theorem add_watch_session_hash (ok : Bool) (name user_data : String) (st : State) :
    (g_dbus_add_disconnect_watch ok name user_data st).2.session_hash = st.session_hash := by
  unfold g_dbus_add_disconnect_watch; split <;> rfl

theorem add_watch_interfaces (ok : Bool) (name user_data : String) (st : State) :
    (g_dbus_add_disconnect_watch ok name user_data st).2.interfaces = st.interfaces := by
  unfold g_dbus_add_disconnect_watch; split <;> rfl

theorem add_watch_log (ok : Bool) (name user_data : String) (st : State) :
    (g_dbus_add_disconnect_watch ok name user_data st).2.log = st.log := by
  unfold g_dbus_add_disconnect_watch; split <;> rfl

theorem create_err_false (err : Int) (st : State) : create_err err false st = (err, st) :=
  rfl

theorem create_err_true (err : Int) (st : State) :
    create_err err true st = (err, { st with undefined := true }) :=
  rfl

/-- The outcome of `create_register`: the object registration goes through exactly
when the environment lets it and the path carries no object yet. -/
theorem create_register_ret (env : create_env) (owner p : String) (l : create_locals)
    (st : State) :
    (create_register env owner p l st).1
      = if env.register_interface = true ∧ session_path_of p ∉ st.interfaces then 0
        else -EINVAL := by
  unfold create_register g_dbus_register_interface hash_table_replace hash_table_remove
  simp only [create_err_true]
  simp only [create_session, add_watch_interfaces]
  by_cases h : env.register_interface = true ∧ session_path_of p ∉ st.interfaces
  · simp [h]
  · simp [h]

theorem create_register_log (env : create_env) (owner p : String) (l : create_locals)
    (st : State) :
    (create_register env owner p l st).2.log
      = if env.register_interface = true ∧ session_path_of p ∉ st.interfaces then
          st.log ++ [Effect.send_reply owner (session_path_of p),
                     Effect.timeout_add_seconds 0 (session_path_of p)]
        else st.log := by
  unfold create_register g_dbus_register_interface hash_table_replace hash_table_remove
  simp only [create_err_true]
  simp only [create_session, add_watch_interfaces]
  by_cases h : env.register_interface = true ∧ session_path_of p ∉ st.interfaces
  · simp [h, g_dbus_send_reply, g_timeout_add_seconds, add_watch_log]
  · simp [h, add_watch_log]

theorem create_register_hash (env : create_env) (owner p : String) (l : create_locals)
    (st : State) :
    (create_register env owner p l st).2.session_hash
      = if env.register_interface = true ∧ session_path_of p ∉ st.interfaces then
          g_hash_table_replace st.session_hash (session_path_of p)
            (create_session owner p
              (g_dbus_add_disconnect_watch env.add_disconnect_watch owner
                (session_path_of p) st).1 l)
        else
          g_hash_table_remove
            (g_hash_table_replace st.session_hash (session_path_of p)
              (create_session owner p
                (g_dbus_add_disconnect_watch env.add_disconnect_watch owner
                  (session_path_of p) st).1 l))
            (session_path_of p) := by
  unfold create_register g_dbus_register_interface hash_table_replace hash_table_remove
  simp only [create_err_true]
  simp only [create_session, add_watch_interfaces]
  by_cases h : env.register_interface = true ∧ session_path_of p ∉ st.interfaces
  · simp [h, g_dbus_send_reply, g_timeout_add_seconds, add_watch_session_hash]
  · simp [h, add_watch_session_hash]

/-- A create request on a state that already has the derived key fails with
`-EEXIST` and changes nothing. -/
theorem create_registered (env : create_env) (msg : create_msg) (st : State) (p : String)
    (hp : msg.notify_path = some p) (hstr : env.strdup_printf = true)
    (h : (g_hash_table_lookup st.session_hash (session_path_of p)).isSome = true) :
    __connman_session_create env msg st = (-EEXIST, st) := by
  unfold __connman_session_create
  simp only [create_err_false]
  simp [hp, hstr, h]

/-- A create request that returns 0 has taken the path through `create_register`. -/
theorem create_ok_inv (env : create_env) (msg : create_msg) (st : State)
    (h : (__connman_session_create env msg st).1 = 0) :
    ∃ p, msg.notify_path = some p
      ∧ g_hash_table_lookup st.session_hash (session_path_of p) = none
      ∧ (env.register_interface = true ∧ session_path_of p ∉ st.interfaces)
      ∧ __connman_session_create env msg st
          = create_register env msg.sender p
              (create_loop env.try_new0_info 0 msg.dict {}) st := by
  unfold __connman_session_create at h ⊢
  simp only [create_err_false] at h ⊢
  cases hn : msg.notify_path with
  | none => simp [hn, EINVAL] at h
  | some p =>
    simp only [hn] at h ⊢
    refine ⟨p, rfl, ?_⟩
    split_ifs at h ⊢ with h1 h2 h3
    · simp [ENOMEM] at h
    · simp [EEXIST] at h
    · simp [ENOMEM] at h
    · refine ⟨by simpa using h2, ?_, rfl⟩
      rw [create_register_ret] at h
      by_contra hc
      simp [hc, EINVAL] at h

/-- C2: if a create request with notify target `p` returned 0, the derived key is
registered in the state it leaves; and in every state in which that key is
registered, a create request with the same notify target, from any sender and with
any attributes, returns `-EEXIST` and leaves the state as it was (the path string
being allocated). In particular the same request repeated right away fails so. -/
theorem create_twice_EEXIST (env1 env2 : create_env) (m1 m2 : create_msg) (st : State)
    (p : String) (hp1 : m1.notify_path = some p) (hp2 : m2.notify_path = some p)
    (hok : (__connman_session_create env1 m1 st).1 = 0)
    (hstr : env2.strdup_printf = true) :
    (g_hash_table_lookup (__connman_session_create env1 m1 st).2.session_hash
        (session_path_of p)).isSome = true
      ∧ (∀ st' : State,
          (g_hash_table_lookup st'.session_hash (session_path_of p)).isSome = true →
          __connman_session_create env2 m2 st' = (-EEXIST, st'))
      ∧ (__connman_session_create env2 m2 (__connman_session_create env1 m1 st).2).1
          = -EEXIST := by
  have hreg : (g_hash_table_lookup (__connman_session_create env1 m1 st).2.session_hash
        (session_path_of p)).isSome = true := by
    obtain ⟨q, hq, _, hri, heq⟩ := create_ok_inv env1 m1 st hok
    have hqp : q = p := by rw [hp1] at hq; exact (Option.some.inj hq).symm
    subst hqp
    rw [heq, create_register_hash, if_pos hri, lookup_replace_self]
    rfl
  refine ⟨hreg, fun st' h' => create_registered env2 m2 st' p hp2 hstr h', ?_⟩
  rw [create_registered env2 m2 _ p hp2 hstr hreg]

/-- Witness of C2: two create requests with notify target `/foo` from two senders,
starting right after initialisation. -/
theorem create_twice_EEXIST_witness :
    (__connman_session_create env_ok
        { sender := ":1.9", dict := [("Realtime", DBusValue.basic (DBusBasic.boolean true))],
          notify_path := some "/foo" }
        (__connman_session_create env_ok
          { sender := ":1.7", dict := [], notify_path := some "/foo" }
          (__connman_session_init true static_init).2).2).1 = -EEXIST :=
  (create_twice_EEXIST env_ok env_ok
    { sender := ":1.7", dict := [], notify_path := some "/foo" }
    { sender := ":1.9", dict := [("Realtime", DBusValue.basic (DBusBasic.boolean true))],
      notify_path := some "/foo" }
    (__connman_session_init true static_init).2 "/foo" rfl rfl (by decide) rfl).2.2

/-! ## Destroy by a requester that is not the owner -/

/-- C3: when the session path of a destroy request is registered and the sender of
the request differs from the owner of that session, `__connman_session_destroy`
returns `-EACCES` and the state is the one before the call: the session is still
registered with the same fields, the watches (none cancelled) and the registered
objects (none unregistered) are the same, and nothing was emitted. -/
theorem destroy_non_owner_EACCES (msg : destroy_msg) (st : State) (path : String)
    (session : connman_session) (hpath : msg.session_path = some path)
    (hreg : g_hash_table_lookup st.session_hash path = some session)
    (hne : msg.sender ≠ session.owner) :
    __connman_session_destroy msg st = (-EACCES, st)
      ∧ g_hash_table_lookup (__connman_session_destroy msg st).2.session_hash path
          = some session
      ∧ (__connman_session_destroy msg st).2.watches = st.watches
      ∧ (__connman_session_destroy msg st).2.interfaces = st.interfaces
      ∧ (__connman_session_destroy msg st).2.log = st.log := by
  have h : __connman_session_destroy msg st = (-EACCES, st) := by
    unfold __connman_session_destroy
    simp [hpath, hreg, hne]
  rw [h]
  exact ⟨rfl, hreg, rfl, rfl, rfl⟩

/-- Witness of C3: `:1.9` asks to destroy the session `:1.7` created on `/foo`. -/
theorem destroy_non_owner_EACCES_witness :
    __connman_session_destroy { sender := ":1.9", session_path := some "/sessions/foo" }
        (__connman_session_create env_ok
          { sender := ":1.7", dict := [], notify_path := some "/foo" }
          (__connman_session_init true static_init).2).2
      = (-EACCES,
         (__connman_session_create env_ok
          { sender := ":1.7", dict := [], notify_path := some "/foo" }
          (__connman_session_init true static_init).2).2) :=
  (destroy_non_owner_EACCES { sender := ":1.9", session_path := some "/sessions/foo" }
    (__connman_session_create env_ok
      { sender := ":1.7", dict := [], notify_path := some "/foo" }
      (__connman_session_init true static_init).2).2
    "/sessions/foo"
    (create_session ":1.7" "/foo" 1 {})
    rfl (by decide) (by decide)).1

/-! ## The derived key -/

theorem session_path_of_injective (a b : String) (h : session_path_of a = session_path_of b) :
    a = b := by
  unfold session_path_of at h
  have hd := congrArg String.data h
  rw [String.data_append, String.data_append] at hd
  exact String.ext (List.append_cancel_left hd)

/-- A create request that returns `-EEXIST` found its derived key registered. -/
theorem create_EEXIST_inv (env : create_env) (msg : create_msg) (st : State)
    (h : (__connman_session_create env msg st).1 = -EEXIST) :
    ∃ p, msg.notify_path = some p
      ∧ (g_hash_table_lookup st.session_hash (session_path_of p)).isSome = true := by
  unfold __connman_session_create at h
  simp only [create_err_false] at h
  cases hn : msg.notify_path with
  | none => simp [hn, EINVAL, EEXIST] at h
  | some p =>
    simp only [hn] at h
    refine ⟨p, rfl, ?_⟩
    split_ifs at h with h1 h2 h3
    · simp [ENOMEM, EEXIST] at h
    · exact h2
    · simp [ENOMEM, EEXIST] at h
    · rw [create_register_ret] at h
      split_ifs at h <;> simp [EINVAL, EEXIST] at h

/-- A create request changes the registry at most at the key derived from its notify
path. -/
theorem create_lookup_other (env : create_env) (msg : create_msg) (st : State)
    (p k : String) (hp : msg.notify_path = some p) (hk : k ≠ session_path_of p) :
    g_hash_table_lookup (__connman_session_create env msg st).2.session_hash k
      = g_hash_table_lookup st.session_hash k := by
  unfold __connman_session_create
  simp only [create_err_false]
  simp only [hp]
  split_ifs with h1 h2 h3
  · rfl
  · rfl
  · rfl
  · rw [create_register_hash]
    split_ifs
    · rw [lookup_replace_ne _ _ _ _ hk]
    · rw [lookup_remove_ne _ _ _ hk, lookup_replace_ne _ _ _ _ hk]

/-- The key a successful create request registers and the effects it logs. -/
theorem create_ok_key (env : create_env) (msg : create_msg) (st : State) (p : String)
    (hp : msg.notify_path = some p) (hok : (__connman_session_create env msg st).1 = 0) :
    (g_hash_table_lookup (__connman_session_create env msg st).2.session_hash
        (session_path_of p)).isSome = true
      ∧ (__connman_session_create env msg st).2.log
          = st.log ++ [Effect.send_reply msg.sender (session_path_of p),
                       Effect.timeout_add_seconds 0 (session_path_of p)] := by
  obtain ⟨q, hq, _, hri, heq⟩ := create_ok_inv env msg st hok
  have hqp : q = p := by rw [hp] at hq; exact (Option.some.inj hq).symm
  subst hqp
  rw [heq, create_register_hash, create_register_log, if_pos hri, if_pos hri,
    lookup_replace_self]
  exact ⟨rfl, rfl⟩

/-- C8: the derived key is `"/sessions"` followed by the notify target and nothing
else enters it: a successful create request registers and replies exactly that key,
whatever the sender, the attributes, the environment and the state. The key is
injective in the notify target: distinct notify targets `a` and `b` give distinct
keys, so a create request for `b` never fails with `-EEXIST` because of a session
created for `a`. -/
theorem derived_key_injective (a b : String) (hab : a ≠ b) :
    session_path_of a = "/sessions" ++ a
      ∧ session_path_of a ≠ session_path_of b
      ∧ (∀ (env : create_env) (msg : create_msg) (st : State),
          msg.notify_path = some a → (__connman_session_create env msg st).1 = 0 →
          (g_hash_table_lookup (__connman_session_create env msg st).2.session_hash
              ("/sessions" ++ a)).isSome = true
            ∧ (__connman_session_create env msg st).2.log
                = st.log ++ [Effect.send_reply msg.sender ("/sessions" ++ a),
                             Effect.timeout_add_seconds 0 ("/sessions" ++ a)])
      ∧ (∀ (env1 env2 : create_env) (ma mb : create_msg) (st : State),
          ma.notify_path = some a → mb.notify_path = some b →
          g_hash_table_lookup st.session_hash (session_path_of b) = none →
          (__connman_session_create env2 mb (__connman_session_create env1 ma st).2).1
            ≠ -EEXIST) := by
  have hne : session_path_of a ≠ session_path_of b :=
    fun h => hab (session_path_of_injective a b h)
  refine ⟨rfl, hne, ?_, ?_⟩
  · intro env msg st hp hok
    exact create_ok_key env msg st a hp hok
  · intro env1 env2 ma mb st hpa hpb hfree hex
    obtain ⟨q, hq, hsome⟩ := create_EEXIST_inv env2 mb _ hex
    have hqb : q = b := by rw [hpb] at hq; exact (Option.some.inj hq).symm
    subst hqb
    rw [create_lookup_other env1 ma st a _ hpa (Ne.symm hne), hfree] at hsome
    simp at hsome

/-- Witness of C8: the notify targets `/foo` and `/bar`. -/
theorem derived_key_injective_witness :
    "/foo" ≠ "/bar" ∧ session_path_of "/foo" ≠ session_path_of "/bar" :=
  ⟨by decide, (derived_key_injective "/foo" "/bar" (by decide)).2.1⟩

/-! ## The `Change` method -/

theorem append_allowed_bearers_tokens (ts : List String) :
    append_allowed_bearers (ts.map bearer_of_token) = ts := by
  unfold append_allowed_bearers
  rw [List.map_map]
  have : ((fun info : bearer_info => info.name) ∘ bearer_of_token) = id := by
    funext t; rfl
  rw [this, List.map_id]

/-- C4: for every session and every recognized attribute name paired with a value of
its kind, `change_session` (the message and the bearer entries being allocated)
returns the empty reply, leaves the session with that field set to the new value and
every other field kept, and sends exactly one message: an `Update` to the session's
owner and notify path whose dictionary holds exactly the pair of that name and the
new value. -/
theorem change_session_recognized (try_new0 : Nat → Bool) (c : attribute_change)
    (session : connman_session) (halloc : ∀ i, try_new0 i = true) :
    change_session true try_new0 { args := some (c.name, c.value) } session
      = { reply := DBusReply.empty,
          session := c.set session,
          sent := [update_message session [(c.name, c.dict_value)]] } := by
  cases c with
  | AllowedBearers ts =>
    have hp := parse_strings try_new0 ts (fun i _ => halloc i)
    simp [change_session, change_session_switch, attribute_change.name,
      attribute_change.value, attribute_change.set, attribute_change.dict_value,
      update_message, hp, append_allowed_bearers_tokens]
  | _ =>
    simp [change_session, change_session_switch, attribute_change.name,
      attribute_change.value, attribute_change.set, attribute_change.dict_value,
      update_message]

/-- Witness of C4: `Change("Realtime", true)` on a session with `Realtime = false`
sends one `Update` that holds only `Realtime = true`. -/
theorem change_session_recognized_witness :
    (∀ i, (fun _ : Nat => true) i = true)
      ∧ example_session.realtime = false
      ∧ change_session true (fun _ => true)
          { args := some ("Realtime", DBusValue.basic (DBusBasic.boolean true)) }
          example_session
        = { reply := DBusReply.empty,
            session := { example_session with realtime := true },
            sent := [update_message example_session
                      [("Realtime", DictValue.boolean true)]] } :=
  ⟨fun _ => rfl, rfl,
   change_session_recognized (fun _ => true) (attribute_change.Realtime true)
     example_session (fun _ => rfl)⟩

theorem change_session_switch_unknown (try_new0 : Nat → Bool) (name : String)
    (value : DBusValue) (session : connman_session) (hname : name ∉ recognized_keys) :
    change_session_switch try_new0 name value session = (session, []) := by
  simp only [recognized_keys, List.mem_cons, List.mem_singleton, not_or, List.mem_nil_iff,
    or_false] at hname
  obtain ⟨h1, h2, h3, h4, h5, h6, h7, h8⟩ := hname
  unfold change_session_switch
  cases value with
  | array elems => simp [h1]
  | basic v => cases v <;> simp [h2, h3, h4, h5, h6, h7, h8]

/-- C9: for every session and every `Change` request whose field name is not one of
the eight recognized keys (string equality, so case matters), `change_session`
leaves every field of the session as it was, whether or not the `Update` message
could be allocated; when it could, the reply is the empty success reply (and the
`Update` sent has an empty dictionary). -/
theorem change_session_unknown (new_method_call : Bool) (try_new0 : Nat → Bool)
    (name : String) (value : DBusValue) (session : connman_session)
    (hname : name ∉ recognized_keys) :
    (change_session new_method_call try_new0 { args := some (name, value) } session).session
        = session
      ∧ change_session true try_new0 { args := some (name, value) } session
        = { reply := DBusReply.empty, session := session,
            sent := [update_message session []] } := by
  constructor
  · cases new_method_call <;>
      simp [change_session, change_session_switch_unknown try_new0 name value session hname]
  · simp [change_session, change_session_switch_unknown try_new0 name value session hname,
      update_message]

/-- Witness of C9: the name `realtime` differs from `Realtime` by case only. -/
theorem change_session_unknown_witness :
    "realtime" ∉ recognized_keys
      ∧ (change_session true (fun _ => true)
          { args := some ("realtime", DBusValue.basic (DBusBasic.boolean true)) }
          example_session).reply = DBusReply.empty
      ∧ (change_session true (fun _ => true)
          { args := some ("realtime", DBusValue.basic (DBusBasic.boolean true)) }
          example_session).session = example_session :=
  ⟨by decide,
   congrArg change_result.reply
     (change_session_unknown true (fun _ => true) "realtime"
       (DBusValue.basic (DBusBasic.boolean true)) example_session (by decide)).2,
   (change_session_unknown true (fun _ => true) "realtime"
       (DBusValue.basic (DBusBasic.boolean true)) example_session (by decide)).1⟩

/-- C10, as stated, fails: a `Change` request with the unrecognized name `Bogus`, and
one with the name `Realtime` and a uint32 value, both reach the send, and the
`Update` message sent has a dictionary without any pair. -/
theorem change_session_update_empty :
    (change_session true (fun _ => true)
        { args := some ("Bogus", DBusValue.basic (DBusBasic.boolean true)) }
        example_session).sent
      = [update_message example_session []]
    ∧ (change_session true (fun _ => true)
        { args := some ("Realtime", DBusValue.basic (DBusBasic.uint32 1)) }
        example_session).sent
      = [update_message example_session []]
    ∧ ¬ (∀ (name : String) (value : DBusValue) (session : connman_session),
          ∀ m ∈ (change_session true (fun _ => true)
                  { args := some (name, value) } session).sent,
            ∃ kv, m.dict = some [kv]) := by
  refine ⟨by decide, by decide, ?_⟩
  intro h
  obtain ⟨kv, hkv⟩ := h "Bogus" (DBusValue.basic (DBusBasic.boolean true)) example_session
    (update_message example_session []) (by decide)
  simp [update_message] at hkv

theorem changed_dict_unknown (name : String) (value : DBusValue) (s : connman_session)
    (hname : name ∉ recognized_keys) : changed_dict name value s = [] := by
  simp only [recognized_keys, List.mem_cons, List.mem_singleton, not_or, List.mem_nil_iff,
    or_false] at hname
  obtain ⟨h1, h2, h3, h4, h5, h6, h7, h8⟩ := hname
  simp [changed_dict, attribute_type, h1, h2, h3, h4, h5, h6, h7, h8]

theorem change_session_switch_dict (try_new0 : Nat → Bool) (name : String)
    (value : DBusValue) (session : connman_session) :
    (change_session_switch try_new0 name value session).2
      = changed_dict name value (change_session_switch try_new0 name value session).1 := by
  by_cases hname : name ∈ recognized_keys
  · simp only [recognized_keys, List.mem_cons, List.mem_singleton, List.mem_nil_iff,
      or_false] at hname
    rcases hname with rfl | rfl | rfl | rfl | rfl | rfl | rfl | rfl <;>
      (cases value with
       | array elems =>
         simp [change_session_switch, changed_dict, attribute_type, attribute_value,
           DBusValue.arg_type, append_allowed_bearers]
       | basic v =>
         cases v <;>
           simp [change_session_switch, changed_dict, attribute_type, attribute_value,
             DBusValue.arg_type, DBusBasic.arg_type])
  · rw [change_session_switch_unknown try_new0 name value session hname,
      changed_dict_unknown name value session hname]

/-- C10 amended: `change_session` sends nothing when the request has no argument or
the `Update` message cannot be allocated; otherwise it sends exactly one message,
the `Update` to the session's owner and notify path, and its dictionary holds
exactly one pair, the name with the value the field has after the change, when the
name is recognized and the value has the D-Bus type of that field, and holds no pair
when the name is not recognized or the value has another type. -/
theorem change_session_update_dict (new_method_call : Bool) (try_new0 : Nat → Bool)
    (name : String) (value : DBusValue) (session : connman_session) :
    (change_session new_method_call try_new0 { args := none } session).sent = []
      ∧ (change_session false try_new0 { args := some (name, value) } session).sent = []
      ∧ (change_session true try_new0 { args := some (name, value) } session).sent
        = [update_message session
            (changed_dict name value
              (change_session true try_new0 { args := some (name, value) } session).session)]
      ∧ (changed_dict name value
            (change_session true try_new0 { args := some (name, value) } session).session
          = [] ∨
         ∃ v, changed_dict name value
            (change_session true try_new0 { args := some (name, value) } session).session
          = [(name, v)])
      ∧ ((changed_dict name value
            (change_session true try_new0 { args := some (name, value) } session).session).length
          = 1 ↔ attribute_type name = some value.arg_type) := by
  refine ⟨rfl, rfl, ?_, ?_, ?_⟩
  · simp only [change_session, update_message]
    simp [← change_session_switch_dict]
  · unfold changed_dict
    split_ifs
    · cases attribute_value name _ with
      | none => exact Or.inl rfl
      | some v => exact Or.inr ⟨v, rfl⟩
    · exact Or.inl rfl
  · unfold changed_dict
    constructor
    · intro h
      by_contra hc
      simp [hc] at h
    · intro h
      rw [if_pos h]
      have hv : ∀ s, (attribute_value name s).isSome = true := by
        intro s
        unfold attribute_type at h
        unfold attribute_value
        split_ifs at h ⊢ <;> simp_all
      generalize (change_session true try_new0 { args := some (name, value) } session).session
        = s'
      have hs := hv s'
      cases hs' : attribute_value name s' with
      | none => rw [hs'] at hs; simp at hs
      | some v => rfl

/-! ## Session mode -/

/-- One `__connman_session_set_mode` call: the mode becomes the argument, and
`__connman_service_disconnect_all` is logged exactly when the mode goes from false
to true. -/
theorem set_mode_step (enable : Bool) (st : State) :
    (__connman_session_set_mode enable st).sessionmode = enable
      ∧ (__connman_session_set_mode enable st).log
          = st.log ++ (if st.sessionmode = false ∧ enable = true
                        then [Effect.service_disconnect_all] else []) := by
  unfold __connman_session_set_mode __connman_service_disconnect_all
  cases hm : st.sessionmode <;> cases enable <;> simp [hm]

theorem set_mode_calls_spec (calls : List Bool) :
    ∀ st : State,
      disconnect_all_count (set_mode_calls calls st).log
          = disconnect_all_count st.log + rising_edges st.sessionmode calls
        ∧ (set_mode_calls calls st).sessionmode = (calls.getLast?).getD st.sessionmode := by
  induction calls with
  | nil => intro st; simp [set_mode_calls, rising_edges]
  | cons enable rest ih =>
    intro st
    obtain ⟨hmode, hlog⟩ := set_mode_step enable st
    have h := ih (__connman_session_set_mode enable st)
    have hfold : set_mode_calls (enable :: rest) st
        = set_mode_calls rest (__connman_session_set_mode enable st) := rfl
    rw [hfold, h.1, h.2, hmode, hlog]
    constructor
    · unfold disconnect_all_count
      rw [List.count_append, rising_edges]
      by_cases hc : st.sessionmode = false ∧ enable = true
      · simp [hc, Nat.add_assoc]
      · simp [hc]
    · cases rest with
      | nil => simp
      | cons b bs =>
        rw [List.getLast?_cons_cons, List.getLast?_eq_getLast _ (List.cons_ne_nil b bs)]
        rfl

/-- C5: for every sequence of `__connman_session_set_mode` calls that starts after
`__connman_session_init` (mode false), `__connman_service_disconnect_all` is called
once for each call that changes the mode from false to true and never otherwise:
each single call logs it exactly when the mode was false and the argument is true,
so the number of calls logged is the number of such changes. `__connman_session_mode`
then returns the argument of the last call (false when there was no call), and two
calls with `true` log the side effect once. -/
theorem set_mode_disconnect_all (conn : Bool) (calls : List Bool) :
    (∀ (enable : Bool) (st : State),
        (__connman_session_set_mode enable st).log
          = st.log ++ (if st.sessionmode = false ∧ enable = true
                        then [Effect.service_disconnect_all] else []))
      ∧ __connman_session_mode (__connman_session_init conn static_init).2 = false
      ∧ disconnect_all_count
          (set_mode_calls calls (__connman_session_init conn static_init).2).log
        = rising_edges false calls
      ∧ __connman_session_mode
          (set_mode_calls calls (__connman_session_init conn static_init).2)
        = (calls.getLast?).getD false
      ∧ (set_mode_calls [true, true] (__connman_session_init conn static_init).2).log
        = [Effect.service_disconnect_all] := by
  have h0 : (__connman_session_init conn static_init).2.sessionmode = false := by
    cases conn <;> rfl
  have hl : (__connman_session_init conn static_init).2.log = [] := by
    cases conn <;> rfl
  obtain ⟨hc, hm⟩ := set_mode_calls_spec calls (__connman_session_init conn static_init).2
  refine ⟨fun enable st => (set_mode_step enable st).2, h0, ?_, ?_, ?_⟩
  · rw [hc, hl, h0]; simp [disconnect_all_count]
  · unfold __connman_session_mode; rw [hm, h0]
  · cases conn <;> rfl

/-! ## Effects of create -/

/-- A create request that does not return 0 logs nothing. -/
theorem create_err_log (env : create_env) (msg : create_msg) (st : State)
    (h : (__connman_session_create env msg st).1 ≠ 0) :
    (__connman_session_create env msg st).2.log = st.log := by
  unfold __connman_session_create at h ⊢
  simp only [create_err_false] at h ⊢
  cases hn : msg.notify_path with
  | none => rfl
  | some p =>
    simp only [hn] at h ⊢
    split_ifs at h ⊢ with h1 h2 h3
    · rfl
    · rfl
    · rfl
    · rw [create_register_ret] at h
      rw [create_register_log]
      split_ifs at h ⊢ with h4
      · exact absurd rfl h
      · rfl

/-- C6: the effects a `__connman_session_create` call adds to the log are, when it
returns 0, exactly the reply to the sender carrying the derived session path followed
by the zero-delay timer that runs `session_notify_all` for the new session, in this
order and nothing else (so no notification is scheduled or sent before the reply);
when it returns an error, nothing is added. -/
theorem create_effects_order (env : create_env) (msg : create_msg) (st : State) :
    (__connman_session_create env msg st).2.log
      = st.log ++ create_effects msg (__connman_session_create env msg st).1 := by
  unfold create_effects
  by_cases hok : (__connman_session_create env msg st).1 = 0
  · obtain ⟨p, hp, _, _, _⟩ := create_ok_inv env msg st hok
    rw [if_pos hok, hp, (create_ok_key env msg st p hp hok).2]
  · rw [if_neg hok, create_err_log env msg st hok]
    simp

/-! ## Owner disconnect -/

theorem lookup_of_mem (hash : List (String × connman_session))
    (hnd : (hash.map (fun e => e.1)).Nodup) (e : String × connman_session) (he : e ∈ hash) :
    g_hash_table_lookup hash e.1 = some e.2 := by
  induction hash with
  | nil => simp at he
  | cons x hash ih =>
    rw [List.map_cons, List.nodup_cons] at hnd
    rcases List.mem_cons.mp he with rfl | hmem
    · simp [g_hash_table_lookup]
    · have hx : x.1 ≠ e.1 := by
        intro hxe
        exact hnd.1 (hxe ▸ List.mem_map_of_mem (fun e => e.1) hmem)
      have := ih hnd.2 hmem
      unfold g_hash_table_lookup at this ⊢
      simpa [List.find?_cons, hx] using this

theorem mem_of_lookup (hash : List (String × connman_session)) (k : String)
    (s : connman_session) (h : g_hash_table_lookup hash k = some s) : (k, s) ∈ hash := by
  unfold g_hash_table_lookup at h
  cases hf : hash.find? (fun e => decide (e.1 = k)) with
  | none => simp [hf] at h
  | some e =>
    rw [hf] at h
    have hk : e.1 = k := by simpa using List.find?_some hf
    have hs : e.2 = s := by simpa using h
    have hm := List.mem_of_find?_eq_some hf
    rw [← hk, ← hs]
    exact hm

theorem filter_not_mem_cons {α β : Type} [DecidableEq β] (f : α → β) (b : β) (bs : List β)
    (l : List α) :
    (l.filter (fun x => f x ≠ b)).filter (fun x => f x ∉ bs)
      = l.filter (fun x => f x ∉ b :: bs) := by
  rw [List.filter_filter]
  congr 1
  funext x
  by_cases h1 : f x = b <;> by_cases h2 : f x ∈ bs <;> simp [h1, h2]

theorem entry_eq_of_key (hash : List (String × connman_session))
    (hnd : (hash.map (fun e => e.1)).Nodup) (e e' : String × connman_session)
    (he : e ∈ hash) (he' : e' ∈ hash) (hk : e'.1 = e.1) : e' = e := by
  have h1 := lookup_of_mem hash hnd e he
  have h2 := lookup_of_mem hash hnd e' he'
  rw [hk, h1] at h2
  exact Prod.ext hk (Option.some.inj h2).symm

/-! ## Destroy by the owner -/

/-- What `session_disconnect` does to the state, and the calls it makes in order:
the watch is cancelled when the session holds one, then the object is unregistered,
then the key is removed from the hash table. -/
theorem session_disconnect_fields (session : connman_session) (st : State) :
    (session_disconnect session st).1 = 0
      ∧ (session_disconnect session st).2.session_hash
        = g_hash_table_remove st.session_hash session.session_path
      ∧ (session_disconnect session st).2.watches
        = (if session.notify_watch > 0
            then st.watches.filter (fun w => w.id ≠ session.notify_watch) else st.watches)
      ∧ (session_disconnect session st).2.interfaces
        = st.interfaces.filter (fun p => p ≠ session.session_path)
      ∧ (session_disconnect session st).2.log = st.log
      ∧ (session_disconnect session st).2.calls
        = st.calls
          ++ (if session.notify_watch > 0
                then [Call.remove_watch session.notify_watch] else [])
          ++ [Call.unregister_interface session.session_path,
              Call.hash_table_remove session.session_path]
      ∧ (session_disconnect session st).2.listener_id = st.listener_id
      ∧ (session_disconnect session st).2.undefined = st.undefined := by
  unfold session_disconnect hash_table_remove g_dbus_unregister_interface g_dbus_remove_watch
  by_cases h : session.notify_watch > 0 <;> simp [h]

/-- A destroy request for a path that is not registered returns `-EINVAL` and changes
nothing. -/
theorem destroy_unregistered (msg : destroy_msg) (st : State) (path : String)
    (hpath : msg.session_path = some path)
    (hnone : g_hash_table_lookup st.session_hash path = none) :
    __connman_session_destroy msg st = (-EINVAL, st) := by
  unfold __connman_session_destroy
  simp only [hpath, hnone]

/-- C11: when the session path of a destroy request is registered (under the key that
is its `session_path`) and the sender is the owner of that session,
`__connman_session_destroy` returns 0. The calls it makes on watches, objects and
hash table are, in this order and no other: the cancellation of the session's watch
(when it holds one), the unregistration of its object, and only then the removal of
the key from the hash table. Afterwards the path is not registered, so a later
destroy of it does not find it; no watch with the session's handle is active and no
other watch was touched; the object at the path is gone; the log is unchanged, so no
`Release` was sent; and the lookup of every other key gives what it gave before. -/
theorem destroy_owner_ok (msg : destroy_msg) (st : State) (path : String)
    (session : connman_session) (hpath : msg.session_path = some path)
    (hreg : g_hash_table_lookup st.session_hash path = some session)
    (hkey : session.session_path = path) (howner : msg.sender = session.owner) :
    (__connman_session_destroy msg st).1 = 0
      ∧ (__connman_session_destroy msg st).2.calls
          = st.calls
            ++ (if session.notify_watch > 0
                  then [Call.remove_watch session.notify_watch] else [])
            ++ [Call.unregister_interface path, Call.hash_table_remove path]
      ∧ g_hash_table_lookup (__connman_session_destroy msg st).2.session_hash path = none
      ∧ (∀ later : destroy_msg, later.session_path = some path →
          __connman_session_destroy later (__connman_session_destroy msg st).2
            = (-EINVAL, (__connman_session_destroy msg st).2))
      ∧ (__connman_session_destroy msg st).2.watches
          = (if session.notify_watch > 0
              then st.watches.filter (fun w => w.id ≠ session.notify_watch) else st.watches)
      ∧ (0 < session.notify_watch →
          ∀ w ∈ (__connman_session_destroy msg st).2.watches, w.id ≠ session.notify_watch)
      ∧ (__connman_session_destroy msg st).2.interfaces
          = st.interfaces.filter (fun p => p ≠ path)
      ∧ path ∉ (__connman_session_destroy msg st).2.interfaces
      ∧ (__connman_session_destroy msg st).2.log = st.log
      ∧ (∀ k, k ≠ path →
          g_hash_table_lookup (__connman_session_destroy msg st).2.session_hash k
            = g_hash_table_lookup st.session_hash k) := by
  obtain ⟨_, hh, hw, hi, hl, hc, _, _⟩ := session_disconnect_fields session st
  have hd : __connman_session_destroy msg st = (0, (session_disconnect session st).2) := by
    unfold __connman_session_destroy
    simp [hpath, hreg, howner]
  rw [hkey] at hh hi hc
  have hnone : g_hash_table_lookup (__connman_session_destroy msg st).2.session_hash path
      = none := by
    rw [hd]; show g_hash_table_lookup (session_disconnect session st).2.session_hash path = _
    rw [hh]; exact lookup_remove_self _ _
  refine ⟨by rw [hd], ?_, hnone, ?_, ?_, ?_, ?_, ?_, ?_, ?_⟩
  · rw [hd]; exact hc
  · intro later hl'
    exact destroy_unregistered later _ path hl' hnone
  · rw [hd]; exact hw
  · intro hpos w hwm
    rw [hd] at hwm
    have hwm' : w ∈ (session_disconnect session st).2.watches := hwm
    rw [hw, if_pos hpos, List.mem_filter] at hwm'
    simpa using hwm'.2
  · rw [hd]; exact hi
  · rw [hd]
    show path ∉ (session_disconnect session st).2.interfaces
    rw [hi]; simp
  · rw [hd]; exact hl
  · intro k hk
    rw [hd]
    show g_hash_table_lookup (session_disconnect session st).2.session_hash k = _
    rw [hh, lookup_remove_ne _ _ _ hk]

/-- Witness of C11: `:1.7` destroys the session it created on `/a`; the sessions on
`/b` and `/c` stay. -/
theorem destroy_owner_ok_witness :
    (__connman_session_destroy { sender := ":1.7", session_path := some "/sessions/a" }
        example_state).1 = 0
      ∧ (__connman_session_destroy { sender := ":1.7", session_path := some "/sessions/a" }
          example_state).2.calls
        = example_state.calls
          ++ [Call.remove_watch 1, Call.unregister_interface "/sessions/a",
              Call.hash_table_remove "/sessions/a"]
      ∧ (__connman_session_destroy { sender := ":1.7", session_path := some "/sessions/a" }
          example_state).2.session_hash.map (fun e => e.1)
        = ["/sessions/b", "/sessions/c"] :=
  ⟨(destroy_owner_ok { sender := ":1.7", session_path := some "/sessions/a" } example_state
      "/sessions/a" (create_session ":1.7" "/a" 1 {}) rfl (by decide) rfl rfl).1,
   (destroy_owner_ok { sender := ":1.7", session_path := some "/sessions/a" } example_state
      "/sessions/a" (create_session ":1.7" "/a" 1 {}) rfl (by decide) rfl rfl).2.1,
   by decide⟩

/-! ## Destroy of a path that is not registered -/

/-- C12, as stated, fails: the destroy of the unregistered path `/sessions/none`
returns `-EINVAL`, the very code the function returns for a request without a path
argument, so the error is not distinct from the invalid-argument error. -/
theorem destroy_unknown_not_distinct :
    (__connman_session_destroy { sender := ":1.7", session_path := some "/sessions/none" }
        example_state).1 = -EINVAL
      ∧ (__connman_session_destroy { sender := ":1.7", session_path := none }
          example_state).1 = -EINVAL
      ∧ ¬ ((__connman_session_destroy
              { sender := ":1.7", session_path := some "/sessions/none" } example_state).1
            ≠ (__connman_session_destroy { sender := ":1.7", session_path := none }
                example_state).1) := by
  refine ⟨by decide, by decide, ?_⟩
  intro h
  exact h (by decide)

/-- C12 amended: for every state and every session path that is not registered,
`__connman_session_destroy` returns `-EINVAL` whatever the sender, and leaves the
state, hence the registry, unchanged. The code is the one returned for a request
without a path argument; it differs from `-EACCES` and from the success value 0. -/
theorem destroy_unknown_EINVAL (msg : destroy_msg) (st : State) (path : String)
    (hpath : msg.session_path = some path)
    (hnone : g_hash_table_lookup st.session_hash path = none) :
    __connman_session_destroy msg st = (-EINVAL, st)
      ∧ (__connman_session_destroy msg st).1
          = (__connman_session_destroy { msg with session_path := none } st).1
      ∧ (__connman_session_destroy msg st).1 ≠ -EACCES
      ∧ (__connman_session_destroy msg st).1 ≠ 0 := by
  have h := destroy_unregistered msg st path hpath hnone
  rw [h]
  refine ⟨rfl, rfl, ?_, ?_⟩ <;> simp [EINVAL, EACCES]

/-- Witness of C12: the path `/sessions/none` in the example state, asked for by the
owner of other sessions. -/
theorem destroy_unknown_EINVAL_witness :
    g_hash_table_lookup example_state.session_hash "/sessions/none" = none
      ∧ __connman_session_destroy
          { sender := ":1.7", session_path := some "/sessions/none" } example_state
        = (-EINVAL, example_state) :=
  ⟨by decide,
   (destroy_unknown_EINVAL { sender := ":1.7", session_path := some "/sessions/none" }
      example_state "/sessions/none" rfl (by decide)).1⟩

/-! ## Create without a notify target -/

/-- C13, as stated, fails: a create request whose notify target is the empty string
is not rejected; right after initialisation it returns 0, registers the key
`/sessions` and sends the reply carrying that path. -/
theorem create_empty_notify_accepted :
    (__connman_session_create env_ok { sender := ":1.7", dict := [], notify_path := some "" }
        (__connman_session_init true static_init).2).1 = 0
      ∧ (__connman_session_create env_ok
          { sender := ":1.7", dict := [], notify_path := some "" }
          (__connman_session_init true static_init).2).2.session_hash.map (fun e => e.1)
        = ["/sessions"]
      ∧ (__connman_session_create env_ok
          { sender := ":1.7", dict := [], notify_path := some "" }
          (__connman_session_init true static_init).2).2.log
        = [Effect.send_reply ":1.7" "/sessions",
           Effect.timeout_add_seconds 0 "/sessions"] := by
  refine ⟨by decide, by decide, by decide⟩

/-- C13 amended: for every state, sender and attribute dictionary, a create request
whose notify target is absent (the pointer read from the message is `NULL`) returns
`-EINVAL` and leaves the state as it was: no session is registered and nothing, in
particular no reply carrying a path, is sent. The empty string is a notify target
like any other: whenever the call returns 0 for it, the key registered and replied is
`/sessions`. -/
theorem create_absent_notify_EINVAL (env : create_env) (msg : create_msg) (st : State)
    (habsent : msg.notify_path = none) :
    __connman_session_create env msg st = (-EINVAL, st)
      ∧ (__connman_session_create env msg st).2.session_hash = st.session_hash
      ∧ (__connman_session_create env msg st).2.log = st.log
      ∧ (∀ (env' : create_env) (msg' : create_msg) (st' : State),
          msg'.notify_path = some "" → (__connman_session_create env' msg' st').1 = 0 →
          (g_hash_table_lookup (__connman_session_create env' msg' st').2.session_hash
              "/sessions").isSome = true
            ∧ (__connman_session_create env' msg' st').2.log
                = st'.log ++ [Effect.send_reply msg'.sender "/sessions",
                              Effect.timeout_add_seconds 0 "/sessions"]) := by
  have h : __connman_session_create env msg st = (-EINVAL, st) := by
    unfold __connman_session_create
    simp only [habsent, create_err_false]
  rw [h]
  refine ⟨rfl, rfl, rfl, ?_⟩
  intro env' msg' st' hp hok
  exact create_ok_key env' msg' st' "" hp hok

/-- Witness of C13: a request without notify target in the example state. -/
theorem create_absent_notify_EINVAL_witness :
    __connman_session_create env_ok { sender := ":1.7", dict := [], notify_path := none }
        example_state
      = (-EINVAL, example_state) :=
  (create_absent_notify_EINVAL env_ok { sender := ":1.7", dict := [], notify_path := none }
    example_state rfl).1

/-! ## The full snapshot -/

/-- C14, as stated, fails: the payload built for the example session has a fifteenth
field, `SessionMarker = 0`, that is none of the fields the claim lists. -/
theorem append_notify_all_extra_field :
    ("SessionMarker", DictValue.uint32 0) ∈ append_notify_all example_session
      ∧ ("SessionMarker", DictValue.uint32 0) ∉ snapshot_fields example_session
      ∧ "SessionMarker" ∉ (snapshot_fields example_session).map (fun e => e.1)
      ∧ ¬ (∀ e ∈ append_notify_all example_session, e ∈ snapshot_fields example_session) := by
  refine ⟨by decide, by decide, by decide, ?_⟩
  intro h
  exact absurd (h ("SessionMarker", DictValue.uint32 0) (by decide)) (by decide)

/-- C14 amended: for every session the payload built by `append_notify_all` is, in
this order, the placeholders `Bearer = ""`, `Online = false`, `Name = ""`, `IPv4` and
`IPv6` as empty dictionaries, `Interface = ""`, then every session attribute with
the session's current value (`AllowedBearers` as the bearer names in list order), and
last the one further field `SessionMarker = 0`; no field occurs twice. The `Update`
message `session_notify_all` sends, when it can be allocated, carries exactly this
payload to the session's owner and notify path. -/
theorem append_notify_all_fields (session : connman_session) (st : State) :
    append_notify_all session
        = snapshot_fields session ++ [("SessionMarker", DictValue.uint32 0)]
      ∧ ((append_notify_all session).map (fun e => e.1)).Nodup
      ∧ (session_notify_all true session st).2.log
          = st.log ++ [Effect.send_message
              (update_message session
                (snapshot_fields session ++ [("SessionMarker", DictValue.uint32 0)]))]
      ∧ (session_notify_all false session st).2 = st := by
  refine ⟨rfl, ?_, rfl, rfl⟩
  simp [append_notify_all]

/-! ## Shutdown -/

/-- What `release_session` does to the state when the `Release` message is
allocated. -/
theorem release_session_fields (session : connman_session) (st : State) :
    (release_session true session st).log
        = st.log ++ [Effect.send_message (release_message session)]
      ∧ (release_session true session st).watches
        = (if 0 < session.notify_watch
            then st.watches.filter (fun w => w.id ≠ session.notify_watch) else st.watches)
      ∧ (release_session true session st).interfaces
        = st.interfaces.filter (fun p => p ≠ session.session_path)
      ∧ (release_session true session st).session_hash = st.session_hash
      ∧ (release_session true session st).connection = st.connection
      ∧ (release_session true session st).sessionmode = st.sessionmode := by
  unfold release_session g_dbus_send_message g_dbus_unregister_interface g_dbus_remove_watch
    release_message
  by_cases h : 0 < session.notify_watch <;> simp [h]

theorem release_session_foreach_fields (new_method_call : Nat → Bool)
    (halloc : ∀ i, new_method_call i = true) (entries : List (String × connman_session)) :
    ∀ (i : Nat) (st : State),
      (release_session_foreach new_method_call i entries st).log
          = st.log ++ entries.map (fun e => Effect.send_message (release_message e.2))
        ∧ (release_session_foreach new_method_call i entries st).watches
          = st.watches.filter (fun w => w.id ∉ held_watches entries)
        ∧ (release_session_foreach new_method_call i entries st).interfaces
          = st.interfaces.filter
              (fun p => p ∉ entries.map (fun e => e.2.session_path))
        ∧ (release_session_foreach new_method_call i entries st).connection = st.connection
        ∧ (release_session_foreach new_method_call i entries st).sessionmode
          = st.sessionmode := by
  induction entries with
  | nil =>
    intro i st
    simp [release_session_foreach, held_watches]
  | cons e rest ih =>
    intro i st
    obtain ⟨k, session⟩ := e
    obtain ⟨hl, hw, hi, _, hc, hm⟩ := release_session_fields session st
    obtain ⟨hl', hw', hi', hc', hm'⟩ := ih (i + 1) (release_session true session st)
    simp only [release_session_foreach, halloc i]
    rw [hl', hw', hi', hc', hm', hl, hw, hi, hc, hm]
    refine ⟨by simp, ?_, ?_, rfl, rfl⟩
    · by_cases hpos : 0 < session.notify_watch
      · rw [if_pos hpos]
        have hheld : held_watches ((k, session) :: rest)
            = session.notify_watch :: held_watches rest := by
          simp [held_watches, List.filter_cons, hpos]
        rw [hheld]
        exact filter_not_mem_cons (fun w : watch => w.id) session.notify_watch
          (held_watches rest) st.watches
      · rw [if_neg hpos]
        have hheld : held_watches ((k, session) :: rest) = held_watches rest := by
          simp [held_watches, List.filter_cons, hpos]
        rw [hheld]
    · exact filter_not_mem_cons (fun p : String => p) session.session_path
        (rest.map (fun e => e.2.session_path)) st.interfaces

/-- C15: for every state with an initialised connection, `__connman_session_cleanup`
(each `Release` message being allocated) appends to the log exactly one `Release`
message per registered session, addressed to that session's owner and notify path,
and nothing else; it cancels every watch whose handle a registered session holds and
no other watch, unregisters the object at the session path of every registered
session and no other object, and leaves the registry without any session. No sender
enters the call, so no owner is checked. -/
theorem cleanup_releases_all (new_method_call : Nat → Bool) (st : State)
    (hconn : st.connection = true) (halloc : ∀ i, new_method_call i = true) :
    (__connman_session_cleanup new_method_call st).log
        = st.log ++ st.session_hash.map
            (fun e => Effect.send_message (release_message e.2))
      ∧ (__connman_session_cleanup new_method_call st).session_hash = []
      ∧ (__connman_session_cleanup new_method_call st).watches
        = st.watches.filter (fun w => w.id ∉ held_watches st.session_hash)
      ∧ (∀ e ∈ st.session_hash, 0 < e.2.notify_watch →
          ∀ w ∈ (__connman_session_cleanup new_method_call st).watches,
            w.id ≠ e.2.notify_watch)
      ∧ (__connman_session_cleanup new_method_call st).interfaces
        = st.interfaces.filter
            (fun p => p ∉ st.session_hash.map (fun e => e.2.session_path))
      ∧ (∀ e ∈ st.session_hash,
          e.2.session_path ∉ (__connman_session_cleanup new_method_call st).interfaces) := by
  obtain ⟨hl, hw, hi, _, _⟩ :=
    release_session_foreach_fields new_method_call halloc st.session_hash 0 st
  have hc : __connman_session_cleanup new_method_call st
      = { release_session_foreach new_method_call 0 st.session_hash st with
          session_hash := [],
          calls := (release_session_foreach new_method_call 0 st.session_hash st).calls
            ++ [Call.hash_table_destroy] } := by
    unfold __connman_session_cleanup
    simp [hconn]
  rw [hc]
  refine ⟨hl, rfl, hw, ?_, hi, ?_⟩
  · intro e he hpos w hwm hid
    have hwm' : w ∈ st.watches.filter (fun w => w.id ∉ held_watches st.session_hash) := by
      rw [← hw]; exact hwm
    rw [List.mem_filter] at hwm'
    have hheld : w.id ∈ held_watches st.session_hash := by
      unfold held_watches
      rw [hid]
      exact List.mem_map.mpr ⟨e, List.mem_filter.mpr ⟨he, by simpa using hpos⟩, rfl⟩
    simp [hheld] at hwm'
  · intro e he hmem
    have hmem' : e.2.session_path ∈ st.interfaces.filter
        (fun p => p ∉ st.session_hash.map (fun e => e.2.session_path)) := by
      rw [← hi]; exact hmem
    rw [List.mem_filter] at hmem'
    have : e.2.session_path ∈ st.session_hash.map (fun e => e.2.session_path) :=
      List.mem_map_of_mem (fun e => e.2.session_path) he
    simp [this] at hmem'

/-- Witness of C15: shutdown in the example state sends three `Release` messages and
leaves no session, no watch and no object. -/
theorem cleanup_releases_all_witness :
    example_state.connection = true
      ∧ (__connman_session_cleanup (fun _ => true) example_state).log
          = example_state.log ++
            [Effect.send_message (release_message (create_session ":1.7" "/a" 1 {})),
             Effect.send_message (release_message (create_session ":1.7" "/b" 2 {})),
             Effect.send_message (release_message (create_session ":1.9" "/c" 3 {}))]
      ∧ (__connman_session_cleanup (fun _ => true) example_state).session_hash = []
      ∧ (__connman_session_cleanup (fun _ => true) example_state).watches = []
      ∧ (__connman_session_cleanup (fun _ => true) example_state).interfaces = [] := by
  obtain ⟨hl, hh, hw, _, hi, _⟩ :=
    cleanup_releases_all (fun _ => true) example_state (by decide) (fun _ => rfl)
  refine ⟨by decide, ?_, hh, ?_, ?_⟩
  · rw [hl]; decide
  · rw [hw]; decide
  · rw [hi]; decide

/-! ## Attributes of a new session -/

theorem parse_loop_leading (try_new0 : Nat → Bool) (halloc : ∀ i, try_new0 i = true)
    (elems : List DBusBasic) :
    ∀ (i : Nat) (list : List bearer_info),
      session_parse_allowed_bearers_loop try_new0 i elems list
        = list ++ (leading_strings elems).map bearer_of_token := by
  induction elems with
  | nil => intro i list; simp [session_parse_allowed_bearers_loop, leading_strings]
  | cons v rest ih =>
    intro i list
    cases v with
    | string t =>
      simp only [session_parse_allowed_bearers_loop, halloc i, if_true, leading_strings,
        List.map_cons]
      rw [ih (i + 1)]
      have hm : (if bearer2service (some t) = connman_service_type.CONNMAN_SERVICE_TYPE_UNKNOWN
          ∧ t = "*" then true else false) = decide (t = "*") := by
        by_cases ht : t = "*"
        · subst ht; simp [bearer2service_star]
        · simp [ht]
      simp [bearer_of_token, hm]
    | boolean b => simp [session_parse_allowed_bearers_loop, leading_strings]
    | uint32 n => simp [session_parse_allowed_bearers_loop, leading_strings]
    | other => simp [session_parse_allowed_bearers_loop, leading_strings]

theorem parse_leading (try_new0 : Nat → Bool) (halloc : ∀ i, try_new0 i = true)
    (elems : List DBusBasic) :
    session_parse_allowed_bearers try_new0 elems
      = (leading_strings elems).map bearer_of_token := by
  unfold session_parse_allowed_bearers
  rw [parse_loop_leading try_new0 halloc elems 0 []]
  simp

theorem last_boolean_cons (key k : String) (v : DBusValue)
    (rest : List (String × DBusValue)) (x : Bool) :
    (last_boolean key rest).getD ((last_boolean key [(k, v)]).getD x)
      = (last_boolean key ((k, v) :: rest)).getD x := by
  simp only [last_boolean]
  cases last_boolean key rest <;> simp

theorem last_uint32_cons (key k : String) (v : DBusValue)
    (rest : List (String × DBusValue)) (x : Nat) :
    (last_uint32 key rest).getD ((last_uint32 key [(k, v)]).getD x)
      = (last_uint32 key ((k, v) :: rest)).getD x := by
  simp only [last_uint32]
  cases last_uint32 key rest <;> simp

theorem last_array_cons (key k : String) (v : DBusValue)
    (rest : List (String × DBusValue)) (x : List bearer_info) :
    (match last_array key rest with
      | some elems => (leading_strings elems).map bearer_of_token
      | none =>
        match last_array key [(k, v)] with
        | some elems => (leading_strings elems).map bearer_of_token
        | none => x)
      = (match last_array key ((k, v) :: rest) with
        | some elems => (leading_strings elems).map bearer_of_token
        | none => x) := by
  simp only [last_array]
  cases last_array key rest <;> simp

theorem attributes_of_cons (k : String) (v : DBusValue) (rest : List (String × DBusValue))
    (l : create_locals) :
    attributes_of rest (attributes_of [(k, v)] l) = attributes_of ((k, v) :: rest) l := by
  unfold attributes_of
  simp only [last_boolean_cons, last_uint32_cons, last_array_cons]

theorem attributes_of_nil (l : create_locals) : attributes_of [] l = l := by
  simp [attributes_of, last_boolean, last_uint32, last_array]

theorem create_switch_attributes (try_new0 : Nat → Bool) (halloc : ∀ i, try_new0 i = true)
    (k : String) (v : DBusValue) (l : create_locals) :
    create_switch try_new0 k v l = attributes_of [(k, v)] l := by
  by_cases hname : k ∈ recognized_keys
  · simp only [recognized_keys, List.mem_cons, List.mem_singleton, List.mem_nil_iff,
      or_false] at hname
    rcases hname with rfl | rfl | rfl | rfl | rfl | rfl | rfl | rfl <;>
      (cases v with
       | array elems =>
         simp [create_switch, attributes_of, last_boolean, last_uint32, last_array,
           parse_leading try_new0 halloc]
       | basic b =>
         cases b <;>
           simp [create_switch, attributes_of, last_boolean, last_uint32, last_array])
  · simp only [recognized_keys, List.mem_cons, List.mem_singleton, not_or, List.mem_nil_iff,
      or_false] at hname
    obtain ⟨h1, h2, h3, h4, h5, h6, h7, h8⟩ := hname
    cases v with
    | array elems =>
      simp [create_switch, attributes_of, last_boolean, last_uint32, last_array, h1]
    | basic b =>
      cases b <;>
        simp [create_switch, attributes_of, last_boolean, last_uint32, last_array,
          h2, h3, h4, h5, h6, h7, h8]

/-- The dictionary loop of create computes `attributes_of` when every bearer entry
is allocated. -/
theorem create_loop_attributes (try_new0_info : Nat → Nat → Bool)
    (halloc : ∀ j i, try_new0_info j i = true) (dict : List (String × DBusValue)) :
    ∀ (j : Nat) (l : create_locals),
      create_loop try_new0_info j dict l = attributes_of dict l := by
  induction dict with
  | nil => intro j l; rw [attributes_of_nil]; rfl
  | cons e rest ih =>
    intro j l
    obtain ⟨k, v⟩ := e
    rw [create_loop, ih (j + 1), create_switch_attributes _ (halloc j), attributes_of_cons]

/-- An entry whose key is not recognized, or whose value has not the D-Bus type of
the field the key names, leaves the local variables as they are. -/
theorem create_switch_ignored (try_new0 : Nat → Bool) (k : String) (v : DBusValue)
    (l : create_locals) (h : attribute_type k ≠ some v.arg_type) :
    create_switch try_new0 k v l = l := by
  unfold attribute_type at h
  cases v with
  | array elems =>
    have h1 : k ≠ "AllowedBearers" := by
      intro hk; simp [hk, DBusValue.arg_type] at h
    simp [create_switch, h1]
  | basic b =>
    cases b with
    | boolean b =>
      have hk : ¬ (k = "Realtime" ∨ k = "AvoidHandover" ∨ k = "StayConnected"
          ∨ k = "EmergencyCall" ∨ k = "RoamingAllowed") := by
        intro hk
        have h1 : k ≠ "AllowedBearers" := by
          rcases hk with rfl | rfl | rfl | rfl | rfl <;> decide
        simp [h1, hk, DBusValue.arg_type, DBusBasic.arg_type] at h
      simp only [not_or] at hk
      simp [create_switch, hk]
    | uint32 n =>
      have hk : ¬ (k = "PeriodicConnect" ∨ k = "IdleTimeout") := by
        intro hk
        have h1 : k ≠ "AllowedBearers" := by
          rcases hk with rfl | rfl <;> decide
        have h2 : ¬ (k = "Realtime" ∨ k = "AvoidHandover" ∨ k = "StayConnected"
            ∨ k = "EmergencyCall" ∨ k = "RoamingAllowed") := by
          rcases hk with rfl | rfl <;> decide
        simp [h1, h2, hk, DBusValue.arg_type, DBusBasic.arg_type] at h
      simp only [not_or] at hk
      simp [create_switch, hk]
    | string s => simp [create_switch]
    | other => simp [create_switch]

theorem attributes_of_append (a b : List (String × DBusValue)) :
    ∀ l : create_locals, attributes_of (a ++ b) l = attributes_of b (attributes_of a l) := by
  induction a with
  | nil => intro l; rw [attributes_of_nil]; rfl
  | cons e a ih =>
    intro l
    obtain ⟨k, v⟩ := e
    rw [List.cons_append, ← attributes_of_cons, ih, attributes_of_cons]

theorem attributes_of_ignored (k : String) (v : DBusValue) (l : create_locals)
    (h : attribute_type k ≠ some v.arg_type) : attributes_of [(k, v)] l = l := by
  rw [← create_switch_attributes (fun _ => true) (fun _ => rfl) k v l]
  exact create_switch_ignored _ k v l h

theorem leading_strings_map (ts : List String) :
    leading_strings (ts.map DBusBasic.string) = ts := by
  induction ts with
  | nil => rfl
  | cons t ts ih => simp [leading_strings, ih]

/-- C16, as stated, fails: in `example_dict` the last `AllowedBearers` entry that is a
string sequence gives `["wifi"]`, and the entry after it has a value of another kind
(an array of uint32); yet the session created from it has the empty bearer list,
while the session created from the first entry alone has the bearer `wifi`. -/
theorem create_bearers_overwritten :
    last_string_sequence "AllowedBearers" example_dict = some ["wifi"]
      ∧ string_sequence (DBusValue.array [DBusBasic.uint32 1]) = none
      ∧ (g_hash_table_lookup
          (__connman_session_create env_ok
            { sender := ":1.7", dict := example_dict, notify_path := some "/foo" }
            (__connman_session_init true static_init).2).2.session_hash
          "/sessions/foo").map (fun s => s.allowed_bearers) = some []
      ∧ (g_hash_table_lookup
          (__connman_session_create env_ok
            { sender := ":1.7",
              dict := [("AllowedBearers", DBusValue.array [DBusBasic.string "wifi"])],
              notify_path := some "/foo" }
            (__connman_session_init true static_init).2).2.session_hash
          "/sessions/foo").map (fun s => s.allowed_bearers)
        = some [bearer_of_token "wifi"] := by
  refine ⟨by decide, by decide, by decide, by decide⟩

/-- C16 amended: for every create request that returns 0 (the bearer entries being
allocated), the session registered under the derived key has the sender as owner,
the supplied notify path, and for each policy field the value of the last
dictionary entry that has the field's key and the D-Bus type of the field (boolean,
uint32, or array for `AllowedBearers`), or the default (false, 0, empty list) when
there is no such entry. An array under `AllowedBearers` gives the bearers of its
leading string elements: all of them for a string sequence, none for an array of
another element type. An entry with any other key, or with a recognized key and a
value of another D-Bus type, can be dropped from the dictionary without changing
the fields. -/
theorem create_session_attributes (env : create_env) (msg : create_msg) (st : State)
    (hok : (__connman_session_create env msg st).1 = 0)
    (halloc : ∀ j i, env.try_new0_info j i = true) :
    (∃ p s, msg.notify_path = some p
        ∧ g_hash_table_lookup (__connman_session_create env msg st).2.session_hash
            (session_path_of p) = some s
        ∧ s.owner = msg.sender ∧ s.notify_path = p ∧ s.session_path = session_path_of p
        ∧ s.realtime = (last_boolean "Realtime" msg.dict).getD false
        ∧ s.avoid_handover = (last_boolean "AvoidHandover" msg.dict).getD false
        ∧ s.stay_connected = (last_boolean "StayConnected" msg.dict).getD false
        ∧ s.ecall = (last_boolean "EmergencyCall" msg.dict).getD false
        ∧ s.roaming_allowed = (last_boolean "RoamingAllowed" msg.dict).getD false
        ∧ s.periodic_connect = (last_uint32 "PeriodicConnect" msg.dict).getD 0
        ∧ s.idle_timeout = (last_uint32 "IdleTimeout" msg.dict).getD 0
        ∧ s.allowed_bearers
            = (match last_array "AllowedBearers" msg.dict with
               | some elems => (leading_strings elems).map bearer_of_token
               | none => []))
      ∧ (∀ ts : List String, leading_strings (ts.map DBusBasic.string) = ts)
      ∧ (∀ (before after : List (String × DBusValue)) (k : String) (v : DBusValue),
          attribute_type k ≠ some v.arg_type →
          attributes_of (before ++ (k, v) :: after) {} = attributes_of (before ++ after) {}) := by
  refine ⟨?_, leading_strings_map, ?_⟩
  · obtain ⟨p, hp, _, hri, heq⟩ := create_ok_inv env msg st hok
    refine ⟨p, create_session msg.sender p
      (g_dbus_add_disconnect_watch env.add_disconnect_watch msg.sender
        (session_path_of p) st).1 (attributes_of msg.dict {}), hp, ?_, ?_⟩
    · rw [heq, create_register_hash, if_pos hri, lookup_replace_self,
        create_loop_attributes env.try_new0_info halloc msg.dict 0 {}]
    · exact ⟨rfl, rfl, rfl, rfl, rfl, rfl, rfl, rfl, rfl, rfl, rfl⟩
  · intro before after k v h
    rw [attributes_of_append, attributes_of_append, ← attributes_of_cons,
      attributes_of_ignored k v _ h]

/-- Witness of C16: a create request right after initialisation with `Realtime`
given twice and one entry of an unknown key. -/
theorem create_session_attributes_witness :
    ∃ p s, (some "/foo" : Option String) = some p
      ∧ g_hash_table_lookup
          (__connman_session_create env_ok
            { sender := ":1.7",
              dict := [("Realtime", DBusValue.basic (DBusBasic.boolean true)),
                       ("Bogus", DBusValue.basic (DBusBasic.uint32 5)),
                       ("Realtime", DBusValue.basic (DBusBasic.boolean false)),
                       ("IdleTimeout", DBusValue.basic (DBusBasic.uint32 30))],
              notify_path := some "/foo" }
            (__connman_session_init true static_init).2).2.session_hash
          (session_path_of p) = some s
      ∧ s.owner = ":1.7" ∧ s.realtime = false ∧ s.idle_timeout = 30 := by
  obtain ⟨p, s, hp, hs, ho, _, _, hr, _, _, _, _, _, hi, _⟩ :=
    (create_session_attributes env_ok
      { sender := ":1.7",
        dict := [("Realtime", DBusValue.basic (DBusBasic.boolean true)),
                 ("Bogus", DBusValue.basic (DBusBasic.uint32 5)),
                 ("Realtime", DBusValue.basic (DBusBasic.boolean false)),
                 ("IdleTimeout", DBusValue.basic (DBusBasic.uint32 30))],
        notify_path := some "/foo" }
      (__connman_session_init true static_init).2 (by decide) (fun _ _ => rfl)).1
  exact ⟨p, s, hp, hs, ho, by rw [hr]; decide, by rw [hi]; decide⟩

/-! ## What a change leaves alone -/

theorem change_session_switch_frame (try_new0 : Nat → Bool) (name : String)
    (value : DBusValue) (session : connman_session) :
    same_except name session (change_session_switch try_new0 name value session).1 := by
  by_cases hname : name ∈ recognized_keys
  · simp only [recognized_keys, List.mem_cons, List.mem_singleton, List.mem_nil_iff,
      or_false] at hname
    rcases hname with rfl | rfl | rfl | rfl | rfl | rfl | rfl | rfl <;>
      (cases value with
       | array elems => simp [change_session_switch, same_except]
       | basic v => cases v <;> simp [change_session_switch, same_except])
  · rw [change_session_switch_unknown try_new0 name value session hname]
    simp [same_except]

theorem change_session_frame (new_method_call : Bool) (try_new0 : Nat → Bool)
    (name : String) (value : DBusValue) (session : connman_session) :
    same_except name session
      (change_session new_method_call try_new0 { args := some (name, value) } session).session := by
  cases new_method_call with
  | false => simp [change_session, same_except]
  | true =>
    have h := change_session_switch_frame try_new0 name value session
    simpa [change_session] using h

theorem lookup_cons (a : String) (s : connman_session)
    (hash : List (String × connman_session)) (k : String) :
    g_hash_table_lookup ((a, s) :: hash) k
      = if a = k then some s else g_hash_table_lookup hash k := by
  unfold g_hash_table_lookup
  by_cases h : a = k <;> simp [List.find?_cons, h]

theorem lookup_map_update (hash : List (String × connman_session)) (path k : String)
    (s' : connman_session) :
    g_hash_table_lookup (hash.map (fun e => if e.1 = path then (e.1, s') else e)) k
      = if k = path then (g_hash_table_lookup hash path).map (fun _ => s')
        else g_hash_table_lookup hash k := by
  induction hash with
  | nil => simp [g_hash_table_lookup]
  | cons e hash ih =>
    obtain ⟨a, s⟩ := e
    rw [List.map_cons]
    by_cases ha : a = path
    · subst ha
      rw [if_pos rfl, lookup_cons, ih]
      by_cases hk : a = k
      · subst hk
        rw [if_pos rfl, if_pos rfl, lookup_cons, if_pos rfl]
        rfl
      · have hk' : ¬ k = a := fun h => hk h.symm
        rw [if_neg hk, if_neg hk', if_neg hk', lookup_cons, if_neg hk]
    · rw [if_neg ha, lookup_cons, ih]
      by_cases hk : k = path
      · subst hk
        have hak : ¬ a = k := ha
        rw [if_neg hak, if_pos rfl, if_pos rfl, lookup_cons, if_neg hak]
      · rw [if_neg hk, if_neg hk, lookup_cons]

/-- C17: a `Change` call dispatched to the session registered at `path` runs
`change_session` on that session and leaves, for every request: the session at
`path` equal to the old one except at most in the policy field named in the request
(`same_except`: owner, session path, notify path, watch handle and every other
policy field are the same; a request without arguments changes no field); the
lookup of every other key as it was, so every other session is the same; and the
keys, the watches and the registered objects unchanged. -/
theorem change_session_modifies_one_field (new_method_call : Bool) (try_new0 : Nat → Bool)
    (path : String) (msg : change_msg) (st : State) (session : connman_session)
    (hobj : path ∈ st.interfaces)
    (hreg : g_hash_table_lookup st.session_hash path = some session) :
    ∃ reply st',
      session_method_change new_method_call try_new0 path msg st = some (reply, st')
        ∧ g_hash_table_lookup st'.session_hash path
            = some (change_session new_method_call try_new0 msg session).session
        ∧ (∀ name value, msg.args = some (name, value) →
            same_except name session
              (change_session new_method_call try_new0 msg session).session)
        ∧ (msg.args = none →
            (change_session new_method_call try_new0 msg session).session = session)
        ∧ (∀ k, k ≠ path →
            g_hash_table_lookup st'.session_hash k = g_hash_table_lookup st.session_hash k)
        ∧ st'.session_hash.map (fun e => e.1) = st.session_hash.map (fun e => e.1)
        ∧ st'.watches = st.watches ∧ st'.interfaces = st.interfaces
        ∧ st'.sessionmode = st.sessionmode := by
  refine ⟨(change_session new_method_call try_new0 msg session).reply,
    { st with
      session_hash := st.session_hash.map (fun e =>
        if e.1 = path then (e.1, (change_session new_method_call try_new0 msg session).session)
        else e),
      log := st.log ++ (change_session new_method_call try_new0 msg session).sent.map
        Effect.send_message }, ?_, ?_, ?_, ?_, ?_, ?_, rfl, rfl, rfl⟩
  · unfold session_method_change
    simp [hobj, hreg]
  · show g_hash_table_lookup (st.session_hash.map _) path = _
    rw [lookup_map_update, if_pos rfl, hreg]
    rfl
  · intro name value hargs
    have h := change_session_frame new_method_call try_new0 name value session
    have hm : msg = { args := some (name, value) } := by
      cases msg; simp_all
    rw [hm]
    exact h
  · intro hargs
    have hm : msg = { args := none } := by
      cases msg; simp_all
    rw [hm]
    rfl
  · intro k hk
    show g_hash_table_lookup (st.session_hash.map _) k = _
    rw [lookup_map_update, if_neg hk]
  · simp only
    rw [List.map_map]
    apply List.map_congr_left
    intro e _
    by_cases he : e.1 = path <;> simp [he]

/-- Witness of C17: `Change("IdleTimeout", 30)` on the session at `/sessions/a` of the
example state; the session at `/sessions/b` is what it was. -/
theorem change_session_modifies_one_field_witness :
    ∃ reply st',
      session_method_change true (fun _ => true) "/sessions/a"
          { args := some ("IdleTimeout", DBusValue.basic (DBusBasic.uint32 30)) }
          example_state = some (reply, st')
        ∧ g_hash_table_lookup st'.session_hash "/sessions/a"
            = some { create_session ":1.7" "/a" 1 {} with idle_timeout := 30 }
        ∧ g_hash_table_lookup st'.session_hash "/sessions/b"
            = some (create_session ":1.7" "/b" 2 {}) := by
  obtain ⟨reply, st', h, hs, _, _, hother, _⟩ :=
    change_session_modifies_one_field true (fun _ => true) "/sessions/a"
      { args := some ("IdleTimeout", DBusValue.basic (DBusBasic.uint32 30)) }
      example_state (create_session ":1.7" "/a" 1 {}) (by decide) (by decide)
  refine ⟨reply, st', h, ?_, ?_⟩
  · rw [hs]; decide
  · rw [hother "/sessions/b" (by decide)]; decide

/-! ## Round trip of bearer names -/

/-- C19: for every list of tokens (empty, with unknown or repeated tokens), the
strings `append_allowed_bearers` writes for the list that
`session_parse_allowed_bearers` builds from the tokens (each entry being allocated)
are the tokens themselves, in the same order; hence the `Update` message that
`change_session` sends for `Change("AllowedBearers", ts)` carries the array `ts`. -/
theorem allowed_bearers_round_trip (try_new0 : Nat → Bool) (ts : List String)
    (session : connman_session) (halloc : ∀ i, try_new0 i = true) :
    append_allowed_bearers
        (session_parse_allowed_bearers try_new0 (ts.map DBusBasic.string)) = ts
      ∧ (change_session true try_new0
          { args := some ("AllowedBearers", DBusValue.array (ts.map DBusBasic.string)) }
          session).sent
        = [update_message session [("AllowedBearers", DictValue.string_array ts)]] := by
  have hp := parse_strings try_new0 ts (fun i _ => halloc i)
  constructor
  · rw [hp, append_allowed_bearers_tokens]
  · simp [change_session, change_session_switch, update_message, hp,
      append_allowed_bearers_tokens]

/-- Witness of C19: a list with a known, an unknown and a repeated token. -/
theorem allowed_bearers_round_trip_witness :
    append_allowed_bearers
        (session_parse_allowed_bearers (fun _ => true)
          (["wifi", "bogus", "wifi", "*"].map DBusBasic.string))
      = ["wifi", "bogus", "wifi", "*"] :=
  (allowed_bearers_round_trip (fun _ => true) ["wifi", "bogus", "wifi", "*"]
    example_session (fun _ => rfl)).1

/-! ## Create that fails -/

theorem remove_replace_of_lookup_none (hash : List (String × connman_session))
    (key : String) (v : connman_session) (h : g_hash_table_lookup hash key = none) :
    g_hash_table_remove (g_hash_table_replace hash key v) key = hash := by
  unfold g_hash_table_replace
  rw [remove_of_lookup_none hash key h]
  unfold g_hash_table_remove
  rw [List.filter_append]
  have h1 := remove_of_lookup_none hash key h
  unfold g_hash_table_remove at h1
  rw [h1]
  simp

/-- A create request that does not return 0 leaves the hash table as it was. -/
theorem create_err_hash (env : create_env) (msg : create_msg) (st : State)
    (h : (__connman_session_create env msg st).1 ≠ 0) :
    (__connman_session_create env msg st).2.session_hash = st.session_hash := by
  unfold __connman_session_create at h ⊢
  simp only [create_err_false] at h ⊢
  cases hn : msg.notify_path with
  | none => rfl
  | some p =>
    simp only [hn] at h ⊢
    split_ifs at h ⊢ with h1 h2 h3
    · rfl
    · rfl
    · rfl
    · rw [create_register_ret] at h
      rw [create_register_hash]
      split_ifs at h ⊢ with h4
      · exact absurd rfl h
      · exact remove_replace_of_lookup_none _ _ _ (by simpa using h2)

/-- The error codes of `__connman_session_create` and their causes. -/
theorem create_err_cases (env : create_env) (msg : create_msg) (st : State)
    (h : (__connman_session_create env msg st).1 ≠ 0) :
    (msg.notify_path = none ∧ (__connman_session_create env msg st).1 = -EINVAL)
      ∨ (∃ p, msg.notify_path = some p
          ∧ (g_hash_table_lookup st.session_hash (session_path_of p)).isSome = true
          ∧ (__connman_session_create env msg st).1 = -EEXIST)
      ∨ (∃ p, msg.notify_path = some p
          ∧ ¬ (env.register_interface = true ∧ session_path_of p ∉ st.interfaces)
          ∧ (__connman_session_create env msg st).1 = -EINVAL)
      ∨ ((env.strdup_printf = false ∨ env.try_new0_session = false)
          ∧ (__connman_session_create env msg st).1 = -ENOMEM) := by
  unfold __connman_session_create at h ⊢
  simp only [create_err_false] at h ⊢
  cases hn : msg.notify_path with
  | none => exact Or.inl ⟨rfl, rfl⟩
  | some p =>
    simp only [hn] at h ⊢
    split_ifs at h ⊢ with h1 h2 h3
    · exact Or.inr (Or.inr (Or.inr ⟨Or.inl h1, rfl⟩))
    · exact Or.inr (Or.inl ⟨p, rfl, h2, rfl⟩)
    · exact Or.inr (Or.inr (Or.inr ⟨Or.inr h3, rfl⟩))
    · rw [create_register_ret] at h ⊢
      split_ifs at h ⊢ with h4
      · exact absurd rfl h
      · exact Or.inr (Or.inr (Or.inl ⟨p, rfl, h4, rfl⟩))

/-! ## The invariant of the registry -/

theorem lookup_isSome_of_mem (hash : List (String × connman_session))
    (e : String × connman_session) (he : e ∈ hash) :
    (g_hash_table_lookup hash e.1).isSome = true := by
  cases h : g_hash_table_lookup hash e.1 with
  | some s => rfl
  | none => exact absurd rfl (lookup_none_not_mem hash e.1 h e he)

theorem mem_keys_of_lookup (hash : List (String × connman_session)) (k : String)
    (h : (g_hash_table_lookup hash k).isSome = true) : k ∈ hash.map (fun e => e.1) := by
  cases hl : g_hash_table_lookup hash k with
  | none => rw [hl] at h; simp at h
  | some s => exact List.mem_map.mpr ⟨(k, s), mem_of_lookup hash k s hl, rfl⟩

/-- The invariant survives `session_disconnect`, whatever session is torn down. -/
theorem session_disconnect_invariant (session : connman_session) (st : State)
    (hinv : registry_invariant st) :
    registry_invariant (session_disconnect session st).2 := by
  obtain ⟨h1, h2, h3, h4, h5, h6, h7⟩ := hinv
  obtain ⟨_, hh, hw, hifc, _, _, hli, _⟩ := session_disconnect_fields session st
  have hhash : (session_disconnect session st).2.session_hash
      = st.session_hash.filter (fun e => e.1 ≠ session.session_path) := by
    rw [hh]; rfl
  have hwat : List.Sublist (session_disconnect session st).2.watches st.watches := by
    rw [hw]
    split_ifs
    · exact List.filter_sublist _
    · exact List.Sublist.refl _
  refine ⟨?_, ?_, ?_, ?_, ?_, ?_, ?_⟩
  · intro e he
    rw [hhash] at he
    exact h1 e (List.mem_filter.mp he).1
  · rw [hhash]
    exact h2.sublist ((List.filter_sublist _).map _)
  · rw [hifc]
    exact h3.sublist (List.filter_sublist _)
  · intro p hp
    rw [hifc, List.mem_filter] at hp
    have hne : p ≠ session.session_path := by simpa using hp.2
    rw [hhash]
    have := lookup_remove_ne st.session_hash session.session_path p hne
    unfold g_hash_table_remove at this
    rw [this]
    exact h4 p hp.1
  · intro e he
    rw [hhash, List.mem_filter] at he
    rw [hifc, List.mem_filter]
    exact ⟨h5 e he.1, he.2⟩
  · exact h6.sublist (hwat.map _)
  · intro w hw
    rw [hli]
    exact h7 w (hwat.subset hw)

theorem create_register_watches (env : create_env) (owner p : String) (l : create_locals)
    (st : State) :
    (create_register env owner p l st).2.watches
        = (g_dbus_add_disconnect_watch env.add_disconnect_watch owner
            (session_path_of p) st).2.watches
      ∧ (create_register env owner p l st).2.listener_id
        = (g_dbus_add_disconnect_watch env.add_disconnect_watch owner
            (session_path_of p) st).2.listener_id := by
  unfold create_register g_dbus_register_interface hash_table_replace hash_table_remove
  simp only [create_err_true]
  simp only [create_session, add_watch_interfaces]
  by_cases h : env.register_interface = true ∧ session_path_of p ∉ st.interfaces
  · simp [h, g_dbus_send_reply, g_timeout_add_seconds]
  · simp [h]

theorem create_register_interfaces (env : create_env) (owner p : String)
    (l : create_locals) (st : State) :
    (create_register env owner p l st).2.interfaces
      = if env.register_interface = true ∧ session_path_of p ∉ st.interfaces then
          st.interfaces ++ [session_path_of p]
        else st.interfaces := by
  unfold create_register g_dbus_register_interface hash_table_replace hash_table_remove
  simp only [create_err_true]
  simp only [create_session, add_watch_interfaces]
  by_cases h : env.register_interface = true ∧ session_path_of p ∉ st.interfaces
  · simp [h, g_dbus_send_reply, g_timeout_add_seconds, add_watch_interfaces]
  · simp [h, add_watch_interfaces]

/-- A new watch gets an id above every active one. -/
theorem add_watch_invariant (ok : Bool) (name user_data : String) (st : State)
    (h6 : (st.watches.map (fun w => w.id)).Nodup)
    (h7 : ∀ w ∈ st.watches, 0 < w.id ∧ w.id ≤ st.listener_id) :
    ((g_dbus_add_disconnect_watch ok name user_data st).2.watches.map
        (fun w => w.id)).Nodup
      ∧ (∀ w ∈ (g_dbus_add_disconnect_watch ok name user_data st).2.watches,
          0 < w.id ∧ w.id ≤ (g_dbus_add_disconnect_watch ok name user_data st).2.listener_id) := by
  unfold g_dbus_add_disconnect_watch
  cases ok with
  | false => exact ⟨h6, h7⟩
  | true =>
    simp only [if_true]
    constructor
    · rw [List.map_append, List.nodup_append]
      refine ⟨h6, by simp, ?_⟩
      intro a ha hb
      obtain ⟨w, hw, rfl⟩ := List.mem_map.mp ha
      have hle := (h7 w hw).2
      simp at hb
      omega
    · intro w hw
      rcases List.mem_append.mp hw with hw | hw
      · have := h7 w hw
        exact ⟨this.1, Nat.le_succ_of_le this.2⟩
      · simp at hw
        subst hw
        exact ⟨Nat.succ_pos _, Nat.le_refl _⟩

/-- The invariant survives the registration part of create when the derived key is
not registered yet, whether the object registration goes through or fails. -/
theorem create_register_invariant (env : create_env) (owner p : String) (l : create_locals)
    (st : State) (hinv : registry_invariant st)
    (hfree : g_hash_table_lookup st.session_hash (session_path_of p) = none) :
    registry_invariant (create_register env owner p l st).2 := by
  obtain ⟨h1, h2, h3, h4, h5, h6, h7⟩ := hinv
  obtain ⟨hw6, hw7⟩ := add_watch_invariant env.add_disconnect_watch owner
    (session_path_of p) st h6 h7
  obtain ⟨hcw, hcl⟩ := create_register_watches env owner p l st
  have hkey : session_path_of p ∉ st.session_hash.map (fun e => e.1) := by
    intro hmem
    obtain ⟨e, he, hk⟩ := List.mem_map.mp hmem
    exact lookup_none_not_mem _ _ hfree e he hk
  have hrep : ∀ v, g_hash_table_replace st.session_hash (session_path_of p) v
      = st.session_hash ++ [(session_path_of p, v)] := by
    intro v
    unfold g_hash_table_replace
    rw [remove_of_lookup_none _ _ hfree]
  by_cases hri : env.register_interface = true ∧ session_path_of p ∉ st.interfaces
  · have hh := create_register_hash env owner p l st
    have hi := create_register_interfaces env owner p l st
    rw [if_pos hri, hrep] at hh
    rw [if_pos hri] at hi
    refine ⟨?_, ?_, ?_, ?_, ?_, ?_, ?_⟩
    · intro e he
      rw [hh] at he
      rcases List.mem_append.mp he with he | he
      · exact h1 e he
      · simp at he
        subst he
        exact ⟨rfl, rfl⟩
    · rw [hh, List.map_append, List.nodup_append]
      refine ⟨h2, by simp, ?_⟩
      intro a ha hb
      simp at hb
      subst hb
      exact hkey ha
    · rw [hi, List.nodup_append]
      refine ⟨h3, by simp, ?_⟩
      intro a ha hb
      simp at hb
      subst hb
      exact hri.2 ha
    · intro q hq
      rw [hi] at hq
      rw [hh]
      rcases List.mem_append.mp hq with hq | hq
      · have hne : q ≠ session_path_of p := fun h => hri.2 (h ▸ hq)
        have := lookup_replace_ne st.session_hash (session_path_of p) q
          (create_session owner p
            (g_dbus_add_disconnect_watch env.add_disconnect_watch owner
              (session_path_of p) st).1 l) hne
        rw [hrep] at this
        rw [this]
        exact h4 q hq
      · simp at hq
        subst hq
        rw [← hrep, lookup_replace_self]
        rfl
    · intro e he
      rw [hh] at he
      rw [hi]
      rcases List.mem_append.mp he with he | he
      · exact List.mem_append_left _ (h5 e he)
      · simp at he
        subst he
        simp
    · rw [hcw]; exact hw6
    · rw [hcw, hcl]; exact hw7
  · have hh := create_register_hash env owner p l st
    have hi := create_register_interfaces env owner p l st
    rw [if_neg hri, remove_replace_of_lookup_none _ _ _ hfree] at hh
    rw [if_neg hri] at hi
    refine ⟨?_, ?_, ?_, ?_, ?_, ?_, ?_⟩
    · rw [hh]; exact h1
    · rw [hh]; exact h2
    · rw [hi]; exact h3
    · rw [hh, hi]; exact h4
    · rw [hh, hi]; exact h5
    · rw [hcw]; exact hw6
    · rw [hcw, hcl]; exact hw7

theorem create_invariant (env : create_env) (msg : create_msg) (st : State)
    (hinv : registry_invariant st) :
    registry_invariant (__connman_session_create env msg st).2 := by
  unfold __connman_session_create
  simp only [create_err_false]
  cases hn : msg.notify_path with
  | none => exact hinv
  | some p =>
    simp only
    split_ifs with h1 h2 h3
    · exact hinv
    · exact hinv
    · exact hinv
    · exact create_register_invariant env msg.sender p _ st hinv (by simpa using h2)

theorem destroy_invariant (msg : destroy_msg) (st : State) (hinv : registry_invariant st) :
    registry_invariant (__connman_session_destroy msg st).2 := by
  unfold __connman_session_destroy
  cases hp : msg.session_path with
  | none => exact hinv
  | some path =>
    simp only
    cases hl : g_hash_table_lookup st.session_hash path with
    | none => exact hinv
    | some session =>
      simp only
      split_ifs
      · exact hinv
      · exact session_disconnect_invariant session st hinv

theorem change_session_paths (new_method_call : Bool) (try_new0 : Nat → Bool)
    (msg : change_msg) (session : connman_session) :
    (change_session new_method_call try_new0 msg session).session.notify_path
        = session.notify_path
      ∧ (change_session new_method_call try_new0 msg session).session.session_path
        = session.session_path := by
  obtain ⟨args⟩ := msg
  cases args with
  | none => exact ⟨rfl, rfl⟩
  | some nv =>
    obtain ⟨name, value⟩ := nv
    have h := change_session_frame new_method_call try_new0 name value session
    exact ⟨h.2.2.1, h.2.1⟩

theorem change_invariant (new_method_call : Bool) (try_new0 : Nat → Bool) (path : String)
    (msg : change_msg) (st : State) (reply : DBusReply) (st' : State)
    (h : session_method_change new_method_call try_new0 path msg st = some (reply, st'))
    (hinv : registry_invariant st) : registry_invariant st' := by
  obtain ⟨h1, h2, h3, h4, h5, h6, h7⟩ := hinv
  unfold session_method_change at h
  split_ifs at h with hobj
  cases hl : g_hash_table_lookup st.session_hash path with
  | none => rw [hl] at h; simp at h
  | some session =>
    rw [hl] at h
    simp only [Option.some.injEq, Prod.mk.injEq] at h
    obtain ⟨_, rfl⟩ := h
    obtain ⟨hnp, hsp⟩ := change_session_paths new_method_call try_new0 msg session
    have hkeys : (st.session_hash.map (fun e =>
        if e.1 = path then
          (e.1, (change_session new_method_call try_new0 msg session).session)
        else e)).map (fun e => e.1) = st.session_hash.map (fun e => e.1) := by
      rw [List.map_map]
      apply List.map_congr_left
      intro e _
      by_cases he : e.1 = path <;> simp [he]
    refine ⟨?_, ?_, h3, ?_, ?_, h6, h7⟩
    · intro e' he'
      obtain ⟨e, he, rfl⟩ := List.mem_map.mp he'
      by_cases hk : e.1 = path
      · have hlk := lookup_of_mem st.session_hash h2 e he
        rw [hk, hl] at hlk
        have hs : session = e.2 := Option.some.inj hlk
        rw [if_pos hk]
        show e.1 = session_path_of _ ∧ _ = e.1
        rw [hnp, hsp, hs]
        exact h1 e he
      · rw [if_neg hk]
        exact h1 e he
    · show (List.map (fun e : String × connman_session => e.1)
        (st.session_hash.map _)).Nodup
      rw [hkeys]; exact h2
    · intro p hp
      show (g_hash_table_lookup (st.session_hash.map _) p).isSome = true
      rw [lookup_map_update]
      have := h4 p hp
      by_cases hk : p = path
      · subst hk
        rw [if_pos rfl]
        cases hx : g_hash_table_lookup st.session_hash p with
        | none => rw [hx] at this; simp at this
        | some _ => rfl
      · rw [if_neg hk]; exact this
    · intro e' he'
      obtain ⟨e, he, rfl⟩ := List.mem_map.mp he'
      have : (if e.1 = path then
          (e.1, (change_session new_method_call try_new0 msg session).session)
        else e).1 = e.1 := by
        by_cases hk : e.1 = path <;> simp [hk]
      rw [this]
      exact h5 e he

theorem watch_fire_invariant (w : watch) (st st' : State) (h : watch_fire w st = some st')
    (hinv : registry_invariant st) : registry_invariant st' := by
  unfold watch_fire at h
  split_ifs at h with hmem
  · cases hl : g_hash_table_lookup st.session_hash w.user_data with
    | none => rw [hl] at h; simp at h
    | some session =>
      rw [hl] at h
      simp only at h
      split_ifs at h with hid
      simp only [Option.some.injEq] at h
      rw [← h]
      exact session_disconnect_invariant session st hinv
  · simp only [Option.some.injEq] at h
    rw [← h]; exact hinv

theorem owner_disconnected_invariant (name : String) (st st' : State)
    (h : owner_disconnected name st = some st') (hinv : registry_invariant st) :
    registry_invariant st' := by
  unfold owner_disconnected at h
  generalize st.watches.filter (fun w => w.name = name) = ws at h
  induction ws generalizing st with
  | nil =>
    simp at h
    rw [← h]; exact hinv
  | cons w ws ih =>
    rw [List.foldlM_cons] at h
    cases hf : watch_fire w st with
    | none => rw [hf] at h; simp at h
    | some st1 =>
      rw [hf] at h
      exact ih st1 (watch_fire_invariant w st st1 hf hinv) (by simpa using h)


/-! ## Watches and sessions in reachable states -/

theorem create_register_undefined (env : create_env) (owner p : String) (l : create_locals)
    (st : State) :
    (create_register env owner p l st).2.undefined
      = if env.register_interface = true ∧ session_path_of p ∉ st.interfaces then
          st.undefined
        else true := by
  unfold create_register g_dbus_register_interface hash_table_replace hash_table_remove
  simp only [create_err_true]
  have hu : (g_dbus_add_disconnect_watch env.add_disconnect_watch owner
      (session_path_of p) st).2.undefined = st.undefined := by
    unfold g_dbus_add_disconnect_watch; split <;> rfl
  simp only [create_session, add_watch_interfaces]
  by_cases h : env.register_interface = true ∧ session_path_of p ∉ st.interfaces
  · simp [h, g_dbus_send_reply, g_timeout_add_seconds, hu]
  · simp [h]

/-- The watch list and the handle after `g_dbus_add_disconnect_watch`. -/
theorem add_watch_watches (ok : Bool) (name user_data : String) (st : State) :
    (g_dbus_add_disconnect_watch ok name user_data st).2.watches
        = (if ok = true then
            st.watches ++ [{ id := st.listener_id + 1, name := name, user_data := user_data }]
           else st.watches)
      ∧ (g_dbus_add_disconnect_watch ok name user_data st).1
        = (if ok = true then st.listener_id + 1 else 0) := by
  unfold g_dbus_add_disconnect_watch
  cases ok <;> simp

theorem create_register_watch_invariant (env : create_env) (owner p : String)
    (l : create_locals) (st : State)
    (hfree : g_hash_table_lookup st.session_hash (session_path_of p) = none)
    (hri : env.register_interface = true ∧ session_path_of p ∉ st.interfaces)
    (hw : watch_invariant st) :
    watch_invariant (create_register env owner p l st).2 := by
  obtain ⟨hj1, hj2⟩ := hw
  obtain ⟨hcw, _⟩ := create_register_watches env owner p l st
  obtain ⟨haw, hid⟩ := add_watch_watches env.add_disconnect_watch owner (session_path_of p) st
  have hh := create_register_hash env owner p l st
  rw [if_pos hri] at hh
  have hrep : g_hash_table_replace st.session_hash (session_path_of p)
      (create_session owner p
        (g_dbus_add_disconnect_watch env.add_disconnect_watch owner
          (session_path_of p) st).1 l)
      = st.session_hash ++ [(session_path_of p, create_session owner p
        (g_dbus_add_disconnect_watch env.add_disconnect_watch owner
          (session_path_of p) st).1 l)] := by
    unfold g_hash_table_replace
    rw [remove_of_lookup_none _ _ hfree]
  rw [hrep] at hh
  constructor
  · intro w hwm
    rw [hcw, haw] at hwm
    rw [hh]
    by_cases hok : env.add_disconnect_watch = true
    · rw [if_pos hok] at hwm
      rcases List.mem_append.mp hwm with hwm | hwm
      · obtain ⟨e, he, h1, h2, h3⟩ := hj1 w hwm
        exact ⟨e, List.mem_append_left _ he, h1, h2, h3⟩
      · simp only [List.mem_singleton] at hwm
        subst hwm
        refine ⟨_, List.mem_append_right _ (List.mem_singleton_self _), rfl, ?_, rfl⟩
        show (g_dbus_add_disconnect_watch env.add_disconnect_watch owner
          (session_path_of p) st).1 = st.listener_id + 1
        rw [hid, if_pos hok]
    · rw [if_neg hok] at hwm
      obtain ⟨e, he, h1, h2, h3⟩ := hj1 w hwm
      exact ⟨e, List.mem_append_left _ he, h1, h2, h3⟩
  · intro e he hpos
    rw [hh] at he
    rw [hcw, haw]
    rcases List.mem_append.mp he with he | he
    · have := hj2 e he hpos
      split_ifs
      · exact List.mem_append_left _ this
      · exact this
    · simp only [List.mem_singleton] at he
      subst he
      have hpos' : 0 < (g_dbus_add_disconnect_watch env.add_disconnect_watch owner
          (session_path_of p) st).1 := hpos
      rw [hid] at hpos'
      by_cases hok : env.add_disconnect_watch = true
      · rw [if_pos hok]
        apply List.mem_append_right
        show ({ id := (g_dbus_add_disconnect_watch env.add_disconnect_watch owner
          (session_path_of p) st).1, name := owner, user_data := session_path_of p } : watch)
          ∈ [_]
        rw [hid, if_pos hok]
        exact List.mem_singleton_self _
      · rw [if_neg hok] at hpos'
        exact absurd hpos' (Nat.lt_irrefl 0)

/-- Tearing down a registered session keeps watches and sessions in agreement. -/
theorem session_disconnect_watch_invariant (session : connman_session) (st : State)
    (k : String) (hinv : registry_invariant st) (hw : watch_invariant st)
    (hmem : (k, session) ∈ st.session_hash) (hpath : session.session_path = k) :
    watch_invariant (session_disconnect session st).2 := by
  obtain ⟨_, h2, _, _, _, h6, h7⟩ := hinv
  obtain ⟨hj1, hj2⟩ := hw
  obtain ⟨_, hh, hwat, _, _, _, _, _⟩ := session_disconnect_fields session st
  rw [hpath] at hh
  constructor
  · intro w hwm
    rw [hwat] at hwm
    have hwold : w ∈ st.watches := by
      split_ifs at hwm
      · exact (List.mem_filter.mp hwm).1
      · exact hwm
    obtain ⟨e, he, h1, hid, ho⟩ := hj1 w hwold
    refine ⟨e, ?_, h1, hid, ho⟩
    rw [hh]
    unfold g_hash_table_remove
    rw [List.mem_filter]
    refine ⟨he, ?_⟩
    have hne : e.1 ≠ k := by
      intro hek
      have heq := entry_eq_of_key st.session_hash h2 (k, session) e hmem he hek
      have hnw : session.notify_watch = w.id := by rw [← hid, heq]
      have hpos : 0 < session.notify_watch := by rw [hnw]; exact (h7 w hwold).1
      rw [if_pos hpos, List.mem_filter] at hwm
      have : w.id ≠ session.notify_watch := by simpa using hwm.2
      exact this hnw.symm
    simpa using hne
  · intro e he hpos
    rw [hh] at he
    unfold g_hash_table_remove at he
    rw [List.mem_filter] at he
    have hne : e.1 ≠ k := by simpa using he.2
    have hwe := hj2 e he.1 hpos
    rw [hwat]
    split_ifs with hs
    · rw [List.mem_filter]
      refine ⟨hwe, ?_⟩
      have hid : e.2.notify_watch ≠ session.notify_watch := by
        intro heq
        have hws := hj2 (k, session) hmem hs
        have := List.inj_on_of_nodup_map h6 hwe hws heq
        exact hne (congrArg watch.user_data this)
      simpa using hid
    · exact hwe

theorem change_session_identity (new_method_call : Bool) (try_new0 : Nat → Bool)
    (msg : change_msg) (session : connman_session) :
    (change_session new_method_call try_new0 msg session).session.owner = session.owner
      ∧ (change_session new_method_call try_new0 msg session).session.notify_watch
        = session.notify_watch := by
  obtain ⟨args⟩ := msg
  cases args with
  | none => exact ⟨rfl, rfl⟩
  | some nv =>
    obtain ⟨name, value⟩ := nv
    have h := change_session_frame new_method_call try_new0 name value session
    exact ⟨h.1, h.2.2.2.1⟩

/-- A dispatched `Change` call keeps watches and sessions in agreement and does not
touch `undefined`. -/
theorem change_watch_invariant (new_method_call : Bool) (try_new0 : Nat → Bool)
    (path : String) (msg : change_msg) (st : State) (reply : DBusReply) (st' : State)
    (h : session_method_change new_method_call try_new0 path msg st = some (reply, st'))
    (hinv : registry_invariant st) :
    st'.undefined = st.undefined ∧ (watch_invariant st → watch_invariant st') := by
  obtain ⟨_, h2, _, _, _, _, _⟩ := hinv
  unfold session_method_change at h
  split_ifs at h with hobj
  cases hl : g_hash_table_lookup st.session_hash path with
  | none => rw [hl] at h; simp at h
  | some session =>
    rw [hl] at h
    simp only [Option.some.injEq, Prod.mk.injEq] at h
    obtain ⟨_, rfl⟩ := h
    obtain ⟨hown, hnw⟩ := change_session_identity new_method_call try_new0 msg session
    refine ⟨rfl, ?_⟩
    rintro ⟨hj1, hj2⟩
    have hupd : ∀ e ∈ st.session_hash,
        (if e.1 = path then
          (e.1, (change_session new_method_call try_new0 msg session).session)
         else e).1 = e.1
        ∧ (if e.1 = path then
          (e.1, (change_session new_method_call try_new0 msg session).session)
         else e).2.notify_watch = e.2.notify_watch
        ∧ (if e.1 = path then
          (e.1, (change_session new_method_call try_new0 msg session).session)
         else e).2.owner = e.2.owner := by
      intro e he
      by_cases hk : e.1 = path
      · have hlk := lookup_of_mem st.session_hash h2 e he
        rw [hk, hl] at hlk
        have hs : session = e.2 := Option.some.inj hlk
        rw [if_pos hk]
        exact ⟨rfl, by rw [← hs]; exact hnw, by rw [← hs]; exact hown⟩
      · rw [if_neg hk]
        exact ⟨rfl, rfl, rfl⟩
    constructor
    · intro w hwm
      obtain ⟨e, he, h1, hid, ho⟩ := hj1 w hwm
      obtain ⟨u1, u2, u3⟩ := hupd e he
      exact ⟨_, List.mem_map_of_mem _ he, u1.trans h1, u2.trans hid, u3.trans ho⟩
    · intro e' he' hpos
      obtain ⟨e, he, rfl⟩ := List.mem_map.mp he'
      obtain ⟨u1, u2, u3⟩ := hupd e he
      rw [u2] at hpos
      have := hj2 e he hpos
      rw [u1, u2, u3]
      exact this

/-- One watch firing keeps the invariants and does not touch `undefined`. -/
theorem watch_fire_sound (w : watch) (st st' : State) (h : watch_fire w st = some st')
    (hinv : registry_invariant st) :
    st'.undefined = st.undefined ∧ (watch_invariant st → watch_invariant st') := by
  unfold watch_fire at h
  split_ifs at h with hmem
  · cases hl : g_hash_table_lookup st.session_hash w.user_data with
    | none => rw [hl] at h; simp at h
    | some session =>
      rw [hl] at h
      simp only at h
      split_ifs at h with hid
      simp only [Option.some.injEq] at h
      rw [← h]
      refine ⟨(session_disconnect_fields session st).2.2.2.2.2.2.2, ?_⟩
      intro hw
      have hm := mem_of_lookup _ _ _ hl
      exact session_disconnect_watch_invariant session st w.user_data hinv hw hm
        (hinv.1 _ hm).2
  · simp only [Option.some.injEq] at h
    rw [← h]
    exact ⟨rfl, id⟩

theorem watch_fire_fold_sound (ws : List watch) :
    ∀ (st st' : State), ws.foldlM (fun acc w => watch_fire w acc) st = some st' →
      registry_invariant st →
      registry_invariant st' ∧ st'.undefined = st.undefined
        ∧ (watch_invariant st → watch_invariant st') := by
  induction ws with
  | nil =>
    intro st st' h hinv
    simp at h
    rw [← h]
    exact ⟨hinv, rfl, id⟩
  | cons w ws ih =>
    intro st st' h hinv
    rw [List.foldlM_cons] at h
    cases hf : watch_fire w st with
    | none => rw [hf] at h; simp at h
    | some st1 =>
      rw [hf] at h
      have hinv1 := watch_fire_invariant w st st1 hf hinv
      obtain ⟨hu1, hw1⟩ := watch_fire_sound w st st1 hf hinv
      obtain ⟨hinv', hu', hw'⟩ := ih st1 st' (by simpa using h) hinv1
      exact ⟨hinv', hu'.trans hu1, fun hw => hw' (hw1 hw)⟩

/-- The owner-disconnect event keeps the invariants: the registry invariant always,
the agreement of watches and sessions whenever the state after it is not
`undefined`. -/
theorem owner_disconnected_event_sound (name : String) (st : State)
    (hinv : registry_invariant st) (hw : st.undefined = false → watch_invariant st) :
    registry_invariant (owner_disconnected_event name st)
      ∧ ((owner_disconnected_event name st).undefined = false →
          watch_invariant (owner_disconnected_event name st)) := by
  unfold owner_disconnected_event
  cases h : owner_disconnected name st with
  | none =>
    simp only
    refine ⟨hinv, ?_⟩
    intro hu
    simp at hu
  | some st' =>
    simp only
    unfold owner_disconnected at h
    obtain ⟨hinv', hu', hw'⟩ := watch_fire_fold_sound _ st st' h hinv
    exact ⟨hinv', fun hu => hw' (hw (hu'.symm.trans hu))⟩

theorem create_sound (env : create_env) (msg : create_msg) (st : State)
    (hw : st.undefined = false → watch_invariant st) :
    (__connman_session_create env msg st).2.undefined = false →
      watch_invariant (__connman_session_create env msg st).2 := by
  unfold __connman_session_create
  simp only [create_err_false]
  cases hn : msg.notify_path with
  | none => exact hw
  | some p =>
    simp only
    split_ifs with h1 h2 h3
    · exact hw
    · exact hw
    · exact hw
    · intro hu
      rw [create_register_undefined] at hu
      by_cases hri : env.register_interface = true ∧ session_path_of p ∉ st.interfaces
      · rw [if_pos hri] at hu
        exact create_register_watch_invariant env msg.sender p _ st (by simpa using h2) hri
          (hw hu)
      · rw [if_neg hri] at hu
        simp at hu

theorem destroy_sound (msg : destroy_msg) (st : State)
    (hinv : registry_invariant st) (hw : st.undefined = false → watch_invariant st) :
    (__connman_session_destroy msg st).2.undefined = false →
      watch_invariant (__connman_session_destroy msg st).2 := by
  unfold __connman_session_destroy
  cases hp : msg.session_path with
  | none => exact hw
  | some path =>
    simp only
    cases hl : g_hash_table_lookup st.session_hash path with
    | none => exact hw
    | some session =>
      simp only
      split_ifs
      · exact hw
      · intro hu
        rw [(session_disconnect_fields session st).2.2.2.2.2.2.2] at hu
        have hm := mem_of_lookup _ _ _ hl
        exact session_disconnect_watch_invariant session st path hinv (hw hu) hm
          (hinv.1 _ hm).2

/-- Every reachable state satisfies the registry invariant, and watches and sessions
agree in it unless the execution has become `undefined`. -/
theorem reachable_sound (st : State) (h : reachable st) :
    registry_invariant st ∧ (st.undefined = false → watch_invariant st) := by
  induction h with
  | empty st hh hw hi =>
    unfold registry_invariant watch_invariant
    rw [hh, hw, hi]
    simp
  | step st st' _ hstep ih =>
    obtain ⟨hinv, hw⟩ := ih
    cases hstep with
    | create env msg =>
      exact ⟨create_invariant env msg st hinv, create_sound env msg st hw⟩
    | destroy msg =>
      exact ⟨destroy_invariant msg st hinv, destroy_sound msg st hinv hw⟩
    | change nmc t path msg _ reply _ hc =>
      obtain ⟨hu, hw'⟩ := change_watch_invariant nmc t path msg st reply st' hc hinv
      exact ⟨change_invariant nmc t path msg st reply st' hc hinv,
        fun hu' => hw' (hw (hu.symm.trans hu'))⟩
    | owner_disconnect name => exact owner_disconnected_event_sound name st hinv hw
    | set_mode enable =>
      have h : ∀ b : Bool, (__connman_session_set_mode b st).session_hash = st.session_hash
          ∧ (__connman_session_set_mode b st).watches = st.watches
          ∧ (__connman_session_set_mode b st).interfaces = st.interfaces
          ∧ (__connman_session_set_mode b st).listener_id = st.listener_id
          ∧ (__connman_session_set_mode b st).undefined = st.undefined := by
        intro b
        unfold __connman_session_set_mode __connman_service_disconnect_all
        cases hm : st.sessionmode <;> cases b <;> simp [hm]
      obtain ⟨e1, e2, e3, e4, e5⟩ := h enable
      unfold registry_invariant watch_invariant at *
      rw [e1, e2, e3, e4, e5]
      exact ⟨hinv, hw⟩
    | notify_all nmc session =>
      have h : (session_notify_all nmc session st).2.session_hash = st.session_hash
          ∧ (session_notify_all nmc session st).2.watches = st.watches
          ∧ (session_notify_all nmc session st).2.interfaces = st.interfaces
          ∧ (session_notify_all nmc session st).2.listener_id = st.listener_id
          ∧ (session_notify_all nmc session st).2.undefined = st.undefined := by
        unfold session_notify_all g_dbus_send_message
        cases nmc <;> simp
      obtain ⟨e1, e2, e3, e4, e5⟩ := h
      unfold registry_invariant watch_invariant at *
      rw [e1, e2, e3, e4, e5]
      exact ⟨hinv, hw⟩

/-! ## Owner disconnect in reachable states -/

/-- Whenever `__connman_session_create` reaches the object registration and that
registration fails, the call frees the session path a second time: the state it
leaves is `undefined`. -/
theorem create_registration_failure_undefined (env : create_env) (msg : create_msg)
    (st : State) (p : String) (hp : msg.notify_path = some p)
    (hstr : env.strdup_printf = true) (hnew : env.try_new0_session = true)
    (hfree : g_hash_table_lookup st.session_hash (session_path_of p) = none)
    (hfail : ¬ (env.register_interface = true ∧ session_path_of p ∉ st.interfaces)) :
    (__connman_session_create env msg st).1 = -EINVAL
      ∧ (__connman_session_create env msg st).2.undefined = true := by
  have h : __connman_session_create env msg st
      = create_register env msg.sender p (create_loop env.try_new0_info 0 msg.dict {}) st := by
    unfold __connman_session_create
    simp [hp, hstr, hnew, hfree]
  rw [h, create_register_ret, create_register_undefined, if_neg hfail, if_neg hfail]
  exact ⟨rfl, rfl⟩

/-- In a reachable state that is not `undefined`, at most one active watch was
registered for each registered key. -/
theorem reachable_defined_one_watch (st : State) (hreach : reachable st)
    (hdef : st.undefined = false) :
    ∀ e ∈ st.session_hash,
      (st.watches.filter (fun w => w.user_data = e.1)).length ≤ 1 := by
  obtain ⟨hinv, hw⟩ := reachable_sound st hreach
  obtain ⟨hj1, _⟩ := hw hdef
  obtain ⟨_, hkeys, _, _, _, hids, _⟩ := hinv
  intro e he
  have hall : ∀ w ∈ st.watches.filter (fun w => w.user_data = e.1),
      w.id = e.2.notify_watch := by
    intro w hwm
    rw [List.mem_filter] at hwm
    obtain ⟨e', he', hk, hid, _⟩ := hj1 w hwm.1
    have hu : w.user_data = e.1 := by simpa using hwm.2
    have := entry_eq_of_key st.session_hash hkeys e e' he he' (hk.trans hu)
    rw [← hid, this]
  have hnd : ((st.watches.filter (fun w => w.user_data = e.1)).map (fun w => w.id)).Nodup :=
    hids.sublist ((List.filter_sublist st.watches).map (fun w => w.id))
  generalize st.watches.filter (fun w => w.user_data = e.1) = l at hall hnd
  match l, hall, hnd with
  | [], _, _ => simp
  | [_], _, _ => simp
  | a :: b :: _, hall, hnd =>
    exfalso
    have ha := hall a (by simp)
    have hb := hall b (by simp)
    simp only [List.map_cons, List.nodup_cons, List.mem_cons] at hnd
    exact hnd.1 (Or.inl (ha.trans hb.symm))

/-- In every reachable state, `undefined` or not, every registered key is `/sessions`
followed by the notify path of its session, the keys are pairwise distinct, every
registered key has exactly one object registration, and every registered object path
is a registered key. -/
theorem reachable_keys_and_objects (st : State) (hreach : reachable st) :
    (∀ e ∈ st.session_hash, e.1 = "/sessions" ++ e.2.notify_path)
      ∧ (st.session_hash.map (fun e => e.1)).Nodup
      ∧ (∀ e ∈ st.session_hash, st.interfaces.count e.1 = 1)
      ∧ (∀ p ∈ st.interfaces, (g_hash_table_lookup st.session_hash p).isSome = true) := by
  obtain ⟨⟨h1, h2, h3, h4, h5, _, _⟩, _⟩ := reachable_sound st hreach
  exact ⟨fun e he => (h1 e he).1, h2,
    fun e he => List.count_eq_one_of_mem h3 (h5 e he), h4⟩

theorem example_retry_state_reachable : reachable example_retry_state := by
  unfold example_retry_state
  have h0 : reachable (__connman_session_init true static_init).2 :=
    reachable.empty _ rfl rfl rfl
  have h1 := reachable.step _ _ h0
    (registry_step.create { env_ok with register_interface := false }
      { sender := ":1.7", dict := [], notify_path := some "/foo" }
      (__connman_session_init true static_init).2)
  exact reachable.step _ _ h1
    (registry_step.create env_ok
      { sender := ":1.9", dict := [], notify_path := some "/foo" } _)

/-- C18 at the failing input: a create request of `:1.7` on `/foo` whose object
registration fails, then a create request of `:1.9` on `/foo` that goes through. The
first call frees the session path twice (the state is `undefined`) and leaves its
watch active; the state reached has the one registered key `/sessions/foo` and two
active watches registered for it, and the disconnect event of `:1.7` then fires a
watch whose session is freed: it has no defined behaviour. -/
theorem failed_registration_then_retry :
    reachable example_retry_state
      ∧ (__connman_session_create { env_ok with register_interface := false }
          { sender := ":1.7", dict := [], notify_path := some "/foo" }
          (__connman_session_init true static_init).2).2.undefined = true
      ∧ (__connman_session_create { env_ok with register_interface := false }
          { sender := ":1.7", dict := [], notify_path := some "/foo" }
          (__connman_session_init true static_init).2).2.watches
        = [{ id := 1, name := ":1.7", user_data := "/sessions/foo" }]
      ∧ example_retry_state.session_hash.map (fun e => e.1) = ["/sessions/foo"]
      ∧ example_retry_state.watches
        = [{ id := 1, name := ":1.7", user_data := "/sessions/foo" },
           { id := 2, name := ":1.9", user_data := "/sessions/foo" }]
      ∧ (example_retry_state.watches.filter
          (fun w => w.user_data = "/sessions/foo")).length = 2
      ∧ owner_disconnected ":1.7" example_retry_state = none := by
  refine ⟨example_retry_state_reachable, by decide, by decide, by decide, by decide,
    by decide, by decide⟩

/-- C20 at the failing input: in the example state (not `undefined`) a create request
of `:1.8` on `/d` whose object registration fails. The calls made are the watch
registration, the insertion, the failed object registration and the removal from
the hash table, which frees the session with its path; the jump to `err:` then frees
the path again, so the state is `undefined` instead of the one before the call; the
watch of the request is still active. -/
theorem create_failed_registration_double_free :
    example_state.undefined = false
      ∧ (__connman_session_create { env_ok with register_interface := false }
          { sender := ":1.8", dict := [], notify_path := some "/d" }
          example_state).2.undefined = true
      ∧ (__connman_session_create { env_ok with register_interface := false }
          { sender := ":1.8", dict := [], notify_path := some "/d" }
          example_state).2.calls
        = example_state.calls
          ++ [Call.add_disconnect_watch ":1.8" 4, Call.hash_table_replace "/sessions/d",
              Call.register_interface "/sessions/d" false,
              Call.hash_table_remove "/sessions/d"]
      ∧ (__connman_session_create { env_ok with register_interface := false }
          { sender := ":1.8", dict := [], notify_path := some "/d" }
          example_state).2.watches
        = example_state.watches
          ++ [{ id := 4, name := ":1.8", user_data := "/sessions/d" }]
      ∧ (__connman_session_create { env_ok with register_interface := false }
          { sender := ":1.8", dict := [], notify_path := some "/d" }
          example_state).2 ≠ example_state := by
  refine ⟨by decide, by decide, by decide, by decide, by decide⟩
end Session
